import Mathlib

/-!
Route registration (spring-gf) and server start (starter-gf)

A shallow embedding of the two Go packages of the repository.

* `SpringGF` (spring-gf.go): `Mapper`, `Mapping`, `WebMapping`, `Router`.
  Go pointers (`*Mapper`, `*Mapping`, `*WebMapping`) are addresses into a `Store`
  of heaps, so that a builder method called on a registration is seen through
  every reference to it (the route table keeps the pointer).
* `StarterGF` (starter-gf.go): `OnStartApplication`, `OnStopApplication`.

Go strings are Lean strings, `uint32` and `int` values are `Nat` and `Int`
(no arithmetic is done on them). A `[]SpringWeb.Filter` is a slice value
(backing array, offset, length, capacity) over a heap of arrays, because
`OnStartApplication` appends to it and `append` writes into the backing array
when there is room; a `[]string` of filter names is only read and is a list.
The order in which `range` yields the entries of the route table is an
argument of `OnStartApplication`.

Pointers are taken to be non-nil and maps to be made (`NewWebMapping`), so no
method panics on a nil receiver. The packages outside the repository
(`SpringCore`, `SpringWeb`, `SpringUtils`, `ghttp`, `fmt`) are described by what
their callers here rely on. The evaluation of a condition and the bean lookup
are taken to return; `BindHandler` of the server may panic instead of
returning.
-/

/-! ## Go values: heaps and slices -/

namespace Go

/-- A heap of objects of one type: `cell p` is the object at address `p`, and
`next` the first address not yet handed out by `alloc`. -/
structure Heap (α : Type) where
  next : Nat
  cell : Nat → α

/-- Allocation of a new object (`&T{...}`): the object and its address. -/
def Heap.alloc {α : Type} (h : Heap α) (v : α) : Heap α × Nat :=
  ({ next := h.next + 1, cell := Function.update h.cell h.next v }, h.next)

/-- Dereference of a pointer. -/
def Heap.read {α : Type} (h : Heap α) (p : Nat) : α := h.cell p

/-- Assignment through a pointer. -/
def Heap.write {α : Type} (h : Heap α) (p : Nat) (v : α) : Heap α :=
  { h with cell := Function.update h.cell p v }

/-- A slice value: the address of its backing array, the index in that array
of its first element, its length and its capacity. An array is read as a
function from indices to elements; a slice reaches the indices from `off` up to
`off + cap`. -/
structure Slice where
  array : Nat
  off : Nat
  len : Nat
  cap : Nat
  deriving DecidableEq

/-- The nil slice. -/
def Slice.nil : Slice := { array := 0, off := 0, len := 0, cap := 0 }

/-- The elements of a slice, `s[0]` to `s[len(s)-1]`; the elements are
interface values, `none` being nil. -/
def Slice.elems {β : Type} (arrays : Heap (Nat → Option β)) (s : Slice) : List (Option β) :=
  (List.range s.len).map (fun i => arrays.read s.array (s.off + i))

/-- The built-in `append(s, x)`. With room in the backing array (`len < cap`)
the element is written into it at index `len` of the slice and the slice
returned shares the array. Otherwise a new array receives the elements of the
slice and then `x`; the language leaves its capacity open above `len + 1`, and
nothing else refers to it. -/
def append {β : Type} (arrays : Heap (Nat → Option β)) (s : Slice) (x : Option β) :
    Heap (Nat → Option β) × Slice :=
  if s.len < s.cap then
    (arrays.write s.array (Function.update (arrays.read s.array) (s.off + s.len) x),
      { array := s.array, off := s.off, len := s.len + 1, cap := s.cap })
  else
    let r := arrays.alloc (fun i =>
      if i < s.len then arrays.read s.array (s.off + i) else if i = s.len then x else none)
    (r.1, { array := r.2, off := 0, len := s.len + 1, cap := max (2 * s.cap) (s.len + 1) })

/-- The slice that a call `f(x₁, ..., xₙ)` passes for a variadic parameter: nil
for no argument, otherwise a new array holding exactly the arguments. A call
`f(xs...)` passes the slice `xs` itself. -/
def variadic {β : Type} (arrays : Heap (Nat → Option β)) (args : List (Option β)) :
    Heap (Nat → Option β) × Slice :=
  match args with
  | [] => (arrays, Slice.nil)
  | x :: xs =>
    let r := arrays.alloc (fun i => (x :: xs).getD i none)
    (r.1, { array := r.2, off := 0, len := (x :: xs).length, cap := (x :: xs).length })

/-- The slice expression `s[:n]`, for `n` up to the capacity. -/
def Slice.upTo (s : Slice) (n : Nat) : Slice :=
  { array := s.array, off := s.off, len := n, cap := s.cap }

end Go

/-! ## Collaborators outside the repository -/

namespace SpringWeb

/-- A value of the interface `SpringWeb.Filter`: `none` is the nil interface,
`some f` a filter object `f`. -/
abbrev Filter (F : Type) := Option F

end SpringWeb

namespace SpringCore

/-- Modelled from the spec: the application context of the host framework
(`SpringCore.SpringContext`, embedded in `SpringBoot.ApplicationContext`), which
provides property lookup, bean lookup by name and the active profile. -/
structure SpringContext (F : Type) where
  properties : String → Option String
  beans : String → Option F
  profile : String

/-- Modelled from the spec: `ctx.GetBeanByName(name, &f)` looks the bean up by
name; when found it is stored in the variable and `true` is returned, otherwise
the variable keeps its value. The second component is the variable afterwards. -/
def SpringContext.GetBeanByName {F : Type} (ctx : SpringContext F) (name : String)
    (f : SpringWeb.Filter F) : Bool × SpringWeb.Filter F :=
  match ctx.beans name with
  | some b => (true, some b)
  | none => (false, f)

/-- Modelled from the spec: a `SpringCore.Condition` is a predicate over the
context, seen through its only method `Matches`. -/
abbrev Condition (F : Type) := SpringContext F → Bool

/-- Modelled from the spec: the combinator joining a clause to the clauses
before it. -/
inductive ConditionOp where
  | ConditionAnd
  | ConditionOr
  deriving DecidableEq

/-- Modelled from the spec: `SpringCore.Conditional`, a boolean expression
assembled one clause at a time; `op` is the combinator that the next appended
clause will get. -/
structure Conditional (F : Type) where
  clauses : List (ConditionOp × Condition F)
  op : ConditionOp

/-- Modelled from the spec: `SpringCore.NewConditional()`, the expression with
no clause. -/
def NewConditional {F : Type} : Conditional F :=
  { clauses := [], op := ConditionOp.ConditionAnd }

/-- Modelled from the spec: `And()` sets the combinator of the next clause. -/
def Conditional.And {F : Type} (c : Conditional F) : Conditional F :=
  { c with op := ConditionOp.ConditionAnd }

/-- Modelled from the spec: `Or()` sets the combinator of the next clause. -/
def Conditional.Or {F : Type} (c : Conditional F) : Conditional F :=
  { c with op := ConditionOp.ConditionOr }

/-- Modelled from the spec: `OnCondition(cond)` appends one clause, joined by
the pending combinator, which affects that clause only. -/
def Conditional.OnCondition {F : Type} (c : Conditional F) (cond : Condition F) :
    Conditional F :=
  { clauses := c.clauses ++ [(c.op, cond)], op := ConditionOp.ConditionAnd }

/-- Modelled from the spec: one step of the evaluation, joining the value of
the clauses so far with the next clause. -/
def Conditional.step {F : Type} (ctx : SpringContext F) (acc : Bool)
    (clause : ConditionOp × Condition F) : Bool :=
  match clause.1 with
  | ConditionOp.ConditionAnd => acc && clause.2 ctx
  | ConditionOp.ConditionOr => acc || clause.2 ctx

/-- Modelled from the spec: `Matches(ctx)` walks the accumulated expression
against the context; an expression with no clause matches. -/
def Conditional.Matches {F : Type} (c : Conditional F) (ctx : SpringContext F) : Bool :=
  c.clauses.foldl (Conditional.step ctx) true

end SpringCore

namespace fmt

/-- The verb `%.4x` of Go's `fmt` on an unsigned integer: lowercase hexadecimal
digits, padded with leading zeros to at least 4 digits. -/
def hex4 (v : Nat) : List Char :=
  List.replicate (4 - (Nat.toDigits 16 v).length) '0' ++ Nat.toDigits 16 v

/-- The call `fmt.Sprintf("0x%.4x@%s", method, path)`. -/
def Sprintf_key (method : Nat) (path : String) : String :=
  "0x" ++ String.mk (hex4 method) ++ "@" ++ path

end fmt

/-! ## Package SpringGF (spring-gf.go) -/

namespace SpringGF

open SpringCore Go

/-- The struct `Mapper`; `filters` is a slice of `SpringWeb.Filter`. -/
structure Mapper (H : Type) where
  method : Nat
  path : String
  handler : H
  filters : Slice

/-- The struct `Mapping`; `mapper` is the address of a `Mapper`. The
`*SpringCore.Conditional` of a `Mapping` is created by `NewMapping` and never
handed out, so it is kept in place. -/
structure Mapping (F : Type) where
  mapper : Nat
  port : Int
  filterNames : List String
  cond : Conditional F
  doc : String

/-- The struct `WebMapping`: the Go map from key to `*Mapping`. -/
structure WebMapping where
  Mappings : AList (fun _ : String => Nat)

/-- The objects reachable through pointers, and the backing arrays of the
slices of filters. -/
structure Store (H F : Type) where
  mappers : Heap (Mapper H)
  mappings : Heap (Mapping F)
  tables : Heap WebMapping
  arrays : Heap (Nat → SpringWeb.Filter F)

variable {H F : Type}

/-- The function `NewMapper`. -/
def NewMapper (σ : Store H F) (method : Nat) (path : String) (fn : H)
    (filters : Slice) : Store H F × Nat :=
  let r := σ.mappers.alloc { method := method, path := path, handler := fn, filters := filters }
  ({ σ with mappers := r.1 }, r.2)

/-- The method `(*Mapper).Key`. -/
def Mapper.Key (σ : Store H F) (m : Nat) : String :=
  fmt.Sprintf_key (σ.mappers.read m).method (σ.mappers.read m).path

/-- The method `(*Mapper).Method`. -/
def Mapper.Method (σ : Store H F) (m : Nat) : Nat := (σ.mappers.read m).method

/-- The method `(*Mapper).Path`. -/
def Mapper.Path (σ : Store H F) (m : Nat) : String := (σ.mappers.read m).path

/-- The method `(*Mapper).Handler`. -/
def Mapper.Handler (σ : Store H F) (m : Nat) : H := (σ.mappers.read m).handler

/-- The method `(*Mapper).Filters`. -/
def Mapper.Filters (σ : Store H F) (m : Nat) : Slice :=
  (σ.mappers.read m).filters

/-- The method `(*Mapper).SetFilters`: assigns the field and returns the receiver. -/
def Mapper.SetFilters (σ : Store H F) (m : Nat) (filters : Slice) :
    Store H F × Nat :=
  ({ σ with mappers := σ.mappers.write m { σ.mappers.read m with filters := filters } }, m)

/-- The function `NewMapping`. -/
def NewMapping (σ : Store H F) (mapper : Nat) : Store H F × Nat :=
  let r := σ.mappings.alloc
    { mapper := mapper, port := 0, filterNames := [], cond := NewConditional, doc := "" }
  ({ σ with mappings := r.1 }, r.2)

/-- The method `(*Mapping).Key`. -/
def Mapping.Key (σ : Store H F) (m : Nat) : String :=
  Mapper.Key σ (σ.mappings.read m).mapper

/-- The method `(*Mapping).Method`. -/
def Mapping.Method (σ : Store H F) (m : Nat) : Nat :=
  Mapper.Method σ (σ.mappings.read m).mapper

/-- The method `(*Mapping).Path`. -/
def Mapping.Path (σ : Store H F) (m : Nat) : String :=
  Mapper.Path σ (σ.mappings.read m).mapper

/-- The method `(*Mapping).Handler`. -/
def Mapping.Handler (σ : Store H F) (m : Nat) : H :=
  Mapper.Handler σ (σ.mappings.read m).mapper

/-- The method `(*Mapping).Filters`. -/
def Mapping.Filters (σ : Store H F) (m : Nat) : Slice :=
  Mapper.Filters σ (σ.mappings.read m).mapper

/-- The method `(*Mapping).SetFilters`; `filters` is the slice of the variadic
parameter. -/
def Mapping.SetFilters (σ : Store H F) (m : Nat) (filters : Slice) :
    Store H F × Nat :=
  ((Mapper.SetFilters σ (σ.mappings.read m).mapper filters).1, m)

/-- The method `(*Mapping).Port`. -/
def Mapping.Port (σ : Store H F) (m : Nat) : Int := (σ.mappings.read m).port

/-- The method `(*Mapping).SetPort`. -/
def Mapping.SetPort (σ : Store H F) (m : Nat) (port : Int) : Store H F × Nat :=
  ({ σ with mappings := σ.mappings.write m { σ.mappings.read m with port := port } }, m)

/-- The method `(*Mapping).Doc`. -/
def Mapping.Doc (σ : Store H F) (m : Nat) : String := (σ.mappings.read m).doc

/-- The method `(*Mapping).SetDoc`. -/
def Mapping.SetDoc (σ : Store H F) (m : Nat) (doc : String) : Store H F × Nat :=
  ({ σ with mappings := σ.mappings.write m { σ.mappings.read m with doc := doc } }, m)

/-- The method `(*Mapping).FilterNames`. -/
def Mapping.FilterNames (σ : Store H F) (m : Nat) : List String :=
  (σ.mappings.read m).filterNames

/-- The method `(*Mapping).SetFilterNames`. -/
def Mapping.SetFilterNames (σ : Store H F) (m : Nat) (filterNames : List String) :
    Store H F × Nat :=
  ({ σ with mappings :=
      σ.mappings.write m { σ.mappings.read m with filterNames := filterNames } }, m)

/-- The condition of a registration (the field `cond`). -/
def Mapping.Cond (σ : Store H F) (m : Nat) : Conditional F := (σ.mappings.read m).cond

/-- The method `(*Mapping).Or`. -/
def Mapping.Or (σ : Store H F) (m : Nat) : Store H F × Nat :=
  let c := (σ.mappings.read m).cond.Or
  ({ σ with mappings := σ.mappings.write m { σ.mappings.read m with cond := c } }, m)

/-- The method `(*Mapping).And`. -/
def Mapping.And (σ : Store H F) (m : Nat) : Store H F × Nat :=
  let c := (σ.mappings.read m).cond.And
  ({ σ with mappings := σ.mappings.write m { σ.mappings.read m with cond := c } }, m)

/-- The method `(*Mapping).ConditionOn`. -/
def Mapping.ConditionOn (σ : Store H F) (m : Nat) (cond : Condition F) : Store H F × Nat :=
  let c := (σ.mappings.read m).cond.OnCondition cond
  ({ σ with mappings := σ.mappings.write m { σ.mappings.read m with cond := c } }, m)

/-- The method `(*Mapping).Matches`. -/
def Mapping.Matches (σ : Store H F) (m : Nat) (ctx : SpringContext F) : Bool :=
  (σ.mappings.read m).cond.Matches ctx

/-- The function `NewWebMapping`. -/
def NewWebMapping (σ : Store H F) : Store H F × Nat :=
  let r := σ.tables.alloc { Mappings := ∅ }
  ({ σ with tables := r.1 }, r.2)

/-- The method `(*WebMapping).Request`: a new `Mapper` with nil filters, a new
`Mapping` around it, stored in the map under its key. -/
def WebMapping.Request (σ : Store H F) (m : Nat) (method : Nat) (path : String) (fn : H) :
    Store H F × Nat :=
  let r₁ := NewMapper σ method path fn Slice.nil
  let r₂ := NewMapping r₁.1 r₁.2
  let mapping := r₂.2
  let σ₂ := r₂.1
  let Mappings := (σ₂.tables.read m).Mappings.insert (Mapping.Key σ₂ mapping) mapping
  ({ σ₂ with tables := σ₂.tables.write m { Mappings := Mappings } }, mapping)

/-- The struct `Router`; `mapping` is the address of the `WebMapping` it
registers into. A `Router` is not stored by the package, so it is passed by
value: each builder method returns the router after the assignment. -/
structure Router (F : Type) where
  mapping : Nat
  basePath : String
  filters : Slice
  port : Int
  filterNames : List String
  cond : Conditional F

/-- The function `NewRouter`. -/
def NewRouter (mapping : Nat) (basePath : String) : Router F :=
  { mapping := mapping, basePath := basePath, filters := Slice.nil, port := 0,
    filterNames := [], cond := NewConditional }

/-- The method `(*Router).SetFilters`. -/
def Router.SetFilters (r : Router F) (filters : Slice) : Router F :=
  { r with filters := filters }

/-- The method `(*Router).SetPort`. -/
def Router.SetPort (r : Router F) (port : Int) : Router F :=
  { r with port := port }

/-- The method `(*Router).SetFilterNames`. -/
def Router.SetFilterNames (r : Router F) (filterNames : List String) : Router F :=
  { r with filterNames := filterNames }

/-- The method `(*Router).Or`. -/
def Router.Or (r : Router F) : Router F :=
  { r with cond := r.cond.Or }

/-- The method `(*Router).And`. -/
def Router.And (r : Router F) : Router F :=
  { r with cond := r.cond.And }

/-- The method `(*Router).ConditionOn`. -/
def Router.ConditionOn (r : Router F) (cond : Condition F) : Router F :=
  { r with cond := r.cond.OnCondition cond }

/-- The method `(*Router).Request`: registers at `basePath + path` and passes the
port, filters (`r.filters...`, the slice itself), filter names and condition of
the router to the registration.
The router's `Conditional` is passed as a `Condition`, that is, through
`Matches`, with the clauses it has at the time of the call. -/
def Router.Request (σ : Store H F) (r : Router F) (method : Nat) (path : String) (fn : H) :
    Store H F × Nat :=
  let r₁ := WebMapping.Request σ r.mapping method (r.basePath ++ path) fn
  let r₂ := Mapping.SetPort r₁.1 r₁.2 r.port
  let r₃ := Mapping.SetFilters r₂.1 r₂.2 r.filters
  let r₄ := Mapping.SetFilterNames r₃.1 r₃.2 r.filterNames
  Mapping.ConditionOn r₄.1 r₄.2 r.cond.Matches

/-- The function `Route`; `DefaultWebMapping` is the value of the package
variable of that name. -/
def Route (DefaultWebMapping : Nat) (basePath : String) : Router F :=
  NewRouter DefaultWebMapping basePath

/-- The function `RequestMapping`. -/
def RequestMapping (σ : Store H F) (DefaultWebMapping : Nat) (method : Nat) (path : String)
    (fn : H) : Store H F × Nat :=
  WebMapping.Request σ DefaultWebMapping method path fn

end SpringGF

/-! ## Collaborators of the starter -/

namespace ghttp

/-- A call received by the HTTP server. -/
inductive Call (H : Type) where
  | SetPort (port : Int)
  | BindHandler (pattern : String) (handler : H)
  | Start
  | Shutdown
  deriving DecidableEq

/-- Modelled from the spec: the HTTP server collaborator, which exposes "set
port", "bind path+handler", "start" and "shutdown". It is seen through the calls
it has received, oldest first. The error that `Start` or `Shutdown` returns
(`none` for nil) is a function of the calls received before. Binding reports
no error; a `BindHandler` call that the server refuses does not return: it
panics (or ends the process), with the value `bindPanic` gives for the calls
received before, the pattern and the handler (`none`: the call returns). `E`
is the type of error and panic values. -/
structure Server (H E : Type) where
  calls : List (Call H)
  bindPanic : List (Call H) → String → H → Option E
  startError : List (Call H) → Option E
  shutdownError : List (Call H) → Option E

variable {H E : Type}

/-- The call `s.BindHandler(pattern, handler)`: the server afterwards and the
value of the panic when the call does not return. -/
def Server.BindHandler (s : Server H E) (pattern : String) (handler : H) :
    Server H E × Option E :=
  ({ s with calls := s.calls ++ [Call.BindHandler pattern handler] },
    s.bindPanic s.calls pattern handler)

/-- The call `s.Start()`: the server afterwards and the error returned. -/
def Server.Start (s : Server H E) : Server H E × Option E :=
  ({ s with calls := s.calls ++ [Call.Start] }, s.startError s.calls)

/-- The call `s.Shutdown()`: the server afterwards and the error returned. -/
def Server.Shutdown (s : Server H E) : Server H E × Option E :=
  ({ s with calls := s.calls ++ [Call.Shutdown] }, s.shutdownError s.calls)

end ghttp

namespace SpringUtils

/-- How a function call ends: it returns, or it panics with a value (`none`
being a nil `error`). -/
inductive Outcome (E : Type) where
  | returned
  | panicked (value : Option E)
  deriving DecidableEq

/-- The value built by `SpringUtils.Panic(err)`. -/
structure PanicCond (E : Type) where
  err : Option E

/-- The function `SpringUtils.Panic`. -/
def Panic {E : Type} (err : Option E) : PanicCond E := { err := err }

/-- The method `(*PanicCond).When`: panics with the error when the flag is set. -/
def PanicCond.When {E : Type} (p : PanicCond E) (isPanic : Bool) : Outcome E :=
  if isPanic then Outcome.panicked p.err else Outcome.returned

end SpringUtils

/-! ## Package StarterGF (starter-gf.go) -/

namespace StarterGF

open SpringCore SpringGF SpringUtils

variable {H F E : Type}

/-- The struct `GFServerStarter`. -/
structure GFServerStarter (H E : Type) where
  Server : ghttp.Server H E

/-- The inner loop of `OnStartApplication` over `mapping.FilterNames()`: each
name is looked up into a fresh variable `f`, and `filters = append(filters, f)`
is done on the local slice `filters`. The argument and the result are the
arrays and the local slice. -/
def resolveFilters (ctx : SpringContext F) :
    List String → Go.Heap (Nat → SpringWeb.Filter F) × Go.Slice →
      Go.Heap (Nat → SpringWeb.Filter F) × Go.Slice
  | [], r => r
  | s :: names, r =>
    resolveFilters ctx names (Go.append r.1 r.2 (ctx.GetBeanByName s none).2)

/-- The state carried by the loop over the route table: the store, the server,
the value of the panic that has ended the loop (`none` while it runs), and as a
record of the local variable `filters` its elements at each `BindHandler` call
(the code does not use it after the inner loop). -/
structure Loop (H F E : Type) where
  store : Store H F
  server : ghttp.Server H E
  panic : Option E
  merged : List (List (SpringWeb.Filter F))

/-- The body of the loop over the route table, for one `*Mapping`; after a
panic nothing more is executed. -/
def bindMapping (ctx : SpringContext F) (acc : Loop H F E) (mapping : Nat) : Loop H F E :=
  match acc.panic with
  | some _ => acc
  | none =>
    if Mapping.Matches acc.store mapping ctx then
      let r := resolveFilters ctx (Mapping.FilterNames acc.store mapping)
        (acc.store.arrays, Mapping.Filters acc.store mapping)
      let filters := r.2
      let σ : Store H F := { acc.store with arrays := r.1 }
      let b := acc.server.BindHandler (Mapping.Path σ mapping) (Mapping.Handler σ mapping)
      { store := σ, server := b.1, panic := b.2,
        merged := acc.merged ++ [filters.elems σ.arrays] }
    else acc

/-- What a call of the starter leaves: the store, the starter (its server),
how the call ended, and the record of the local `filters`. -/
structure Exit (H F E : Type) where
  store : Store H F
  starter : GFServerStarter H E
  outcome : Outcome E
  merged : List (List (SpringWeb.Filter F))

/-- The order of a `range` over a map of the route table in one run: what it
makes of the entries of the map. Go leaves it open; `range` yields each entry
once, so it is a rearrangement. -/
abbrev RangeOrder := List (Sigma fun _ : String => Nat) → List (Sigma fun _ : String => Nat)

/-- The `*Mapping` values that `range m.Mappings` yields in a run, for the
table at address `table`. Go leaves the order open: `order` is the order of
this run, a rearrangement of the entries of the map. -/
def rangeMappings (order : RangeOrder) (σ : Store H F) (table : Nat) : List Nat :=
  (order (σ.tables.read table).Mappings.entries).map (fun e => e.2)

/-- The method `(*GFServerStarter).OnStartApplication`. `DefaultWebMapping` is
the value of the package variable `SpringGF.DefaultWebMapping`, `order` the
order of the iteration over the map in this run. -/
def GFServerStarter.OnStartApplication (starter : GFServerStarter H E) (σ : Store H F)
    (DefaultWebMapping : Nat) (ctx : SpringContext F)
    (order : RangeOrder) :
    Exit H F E :=
  let loop := (rangeMappings order σ DefaultWebMapping).foldl (bindMapping ctx)
    { store := σ, server := starter.Server, panic := none, merged := [] }
  match loop.panic with
  | some v =>
    { store := loop.store, starter := { Server := loop.server },
      outcome := Outcome.panicked (some v), merged := loop.merged }
  | none =>
    let r := loop.server.Start
    let err := r.2
    { store := loop.store, starter := { Server := r.1 },
      outcome := (Panic err).When err.isSome, merged := loop.merged }

/-- The method `(*GFServerStarter).OnStopApplication`. -/
def GFServerStarter.OnStopApplication (starter : GFServerStarter H E) (σ : Store H F)
    (_ctx : SpringContext F) : Exit H F E :=
  let r := starter.Server.Shutdown
  let err := r.2
  { store := σ, starter := { Server := r.1 }, outcome := (Panic err).When err.isSome,
    merged := [] }

end StarterGF

/-! ## Observations and example data -/

namespace SpringGF

open SpringCore

variable {H F : Type}

/-- What the getters of a `*Mapping` return, together with its condition:
`slice` is the slice value that `Filters()` returns and `filters` its elements. -/
structure Registration (H F : Type) where
  key : String
  method : Nat
  path : String
  handler : H
  slice : Go.Slice
  filters : List (SpringWeb.Filter F)
  port : Int
  doc : String
  filterNames : List String
  cond : Conditional F

/-- The elements of the slice that `Filters()` returns. -/
def Mapping.FilterList (σ : Store H F) (m : Nat) : List (SpringWeb.Filter F) :=
  (Mapping.Filters σ m).elems σ.arrays

/-- The registration at address `m`, read through the getters `Key`, `Method`,
`Path`, `Handler`, `Filters`, `Port`, `Doc`, `FilterNames`. -/
def Mapping.observe (σ : Store H F) (m : Nat) : Registration H F :=
  { key := Mapping.Key σ m, method := Mapping.Method σ m, path := Mapping.Path σ m,
    handler := Mapping.Handler σ m, slice := Mapping.Filters σ m,
    filters := Mapping.FilterList σ m, port := Mapping.Port σ m,
    doc := Mapping.Doc σ m, filterNames := Mapping.FilterNames σ m, cond := Mapping.Cond σ m }

/-- The Go map of the table at address `t`. -/
def WebMapping.table (σ : Store H F) (t : Nat) : AList (fun _ : String => Nat) :=
  (σ.tables.read t).Mappings

/-- The number of entries of the table at address `t` (`len(m.Mappings)`). -/
def WebMapping.len (σ : Store H F) (t : Nat) : Nat :=
  (WebMapping.table σ t).entries.length

/-- Every pointer held by the table at address `t` refers to an allocated
`Mapping`, whose `mapper` refers to an allocated `Mapper` (in Go a pointer
always does). -/
def WebMapping.Allocated (σ : Store H F) (t : Nat) : Prop :=
  ∀ e ∈ (WebMapping.table σ t).entries,
    e.2 < σ.mappings.next ∧ (σ.mappings.read e.2).mapper < σ.mappers.next

end SpringGF

namespace StarterGF

open SpringCore SpringGF

variable {H F : Type}

/-- The `(Path(), Handler())` pairs of the registrations of the table at
address `t` whose condition matches, in the order of the entries of the map. -/
def matching (σ : Store H F) (t : Nat) (ctx : SpringContext F) : List (String × H) :=
  ((WebMapping.table σ t).entries.filter (fun e => Mapping.Matches σ e.2 ctx)).map
    (fun e => (Mapping.Path σ e.2, Mapping.Handler σ e.2))

/-- The `BindHandler` call for a path and a handler. -/
def bindCall (b : String × H) : ghttp.Call H := ghttp.Call.BindHandler b.1 b.2

/-- The `(Path(), Handler())` pairs of the registrations that a run visits and
whose condition matches, in the order of the run. -/
def visited (order : RangeOrder)
    (σ : Store H F) (t : Nat) (ctx : SpringContext F) : List (String × H) :=
  ((order (WebMapping.table σ t).entries).filter (fun e => Mapping.Matches σ e.2 ctx)).map
    (fun e => (Mapping.Path σ e.2, Mapping.Handler σ e.2))

/-- The server after the `BindHandler` calls for the pairs of a list, made in
order up to the first that panics, with the value of that panic. -/
def bindAll {E : Type} (s : ghttp.Server H E) : List (String × H) → ghttp.Server H E × Option E
  | [] => (s, none)
  | b :: rest =>
    match (s.BindHandler b.1 b.2).2 with
    | some v => ((s.BindHandler b.1 b.2).1, some v)
    | none => bindAll (s.BindHandler b.1 b.2).1 rest

/-- The end of a start after its `BindHandler` calls: the panic of a call is
passed on, otherwise `Start` is called and its error, if any, is the panic. -/
def finish {E : Type} (r : ghttp.Server H E × Option E) :
    ghttp.Server H E × SpringUtils.Outcome E :=
  match r.2 with
  | some v => (r.1, SpringUtils.Outcome.panicked (some v))
  | none => ((r.1.Start).1, (SpringUtils.Panic (r.1.Start).2).When (r.1.Start).2.isSome)

/-- The filter that `ctx.GetBeanByName(s, &f)` leaves in a fresh variable `f`. -/
def resolved (ctx : SpringContext F) (s : String) : SpringWeb.Filter F :=
  (ctx.GetBeanByName s none).2

end StarterGF

namespace Example

open SpringCore SpringGF StarterGF

/-- A store with no registration and one empty route table at address 0;
handlers and filter objects are numbers. -/
def store₀ : Store Nat Nat :=
  { mappers := { next := 0, cell := fun _ =>
      { method := 0, path := "", handler := 0, filters := Go.Slice.nil } },
    mappings := { next := 0, cell := fun _ =>
      { mapper := 0, port := 0, filterNames := [], cond := NewConditional, doc := "" } },
    tables := { next := 1, cell := fun _ => { Mappings := ∅ } },
    arrays := { next := 0, cell := fun _ _ => none } }

/-- The store after `Request(1, "/health", 7)` on the table at address 0. -/
def store₁ : Store Nat Nat := (WebMapping.Request store₀ 0 1 "/health" 7).1

/-- The store after `Request(1, "/x", 7)` on the table at address 0 and then
`SetPort(9090)`, `SetFilters(1)`, `SetFilterNames("f")`, `SetDoc("d")` on the
registration returned (address 0). -/
def storeA : Store Nat Nat :=
  let r := WebMapping.Request store₀ 0 1 "/x" 7
  let s₁ := Mapping.SetPort r.1 r.2 9090
  let v := Go.variadic s₁.1.arrays [some 1]
  let s₂ := Mapping.SetFilters { s₁.1 with arrays := v.1 } s₁.2 v.2
  let s₃ := Mapping.SetFilterNames s₂.1 s₂.2 ["f"]
  (Mapping.SetDoc s₃.1 s₃.2 "d").1

/-- The store after `Request(4, "/x", 7)` on the table at address 0. -/
def storeB : Store Nat Nat := (WebMapping.Request store₀ 0 4 "/x" 7).1

/-- The store after `Request(1, "/health", 7)` and `Request(1, "/off", 8)` on
the table at address 0, the second with a condition that is false. -/
def storeC : Store Nat Nat :=
  let r := WebMapping.Request store₁ 0 1 "/off" 8
  (Mapping.ConditionOn r.1 r.2 (fun _ => false)).1

/-- The store after `all := []Filter{1, 2}`, `a := Request(1, "/a", 7)`,
`a.SetFilters(all[:1]...).SetFilterNames("f")`, `b := Request(1, "/b", 8)` and
`b.SetFilters(all...)` on the table at address 0: the filters of `a` (address
0) and of `b` (address 1) share the array of `all`. -/
def storeShared : Store Nat Nat :=
  let all := Go.variadic store₀.arrays [some 1, some 2]
  let a := WebMapping.Request { store₀ with arrays := all.1 } 0 1 "/a" 7
  let s₁ := Mapping.SetFilters a.1 a.2 (all.2.upTo 1)
  let s₂ := Mapping.SetFilterNames s₁.1 s₁.2 ["f"]
  let b := WebMapping.Request s₂.1 0 1 "/b" 8
  (Mapping.SetFilters b.1 b.2 all.2).1

/-- A context in which the bean "f" is the filter object 5. -/
def ctx : SpringContext Nat :=
  { properties := fun _ => none, beans := fun s => if s = "f" then some 5 else none,
    profile := "" }

/-- A starter whose server has received no call, accepts every `BindHandler`
and whose `Start` and `Shutdown` return nil. -/
def starter : GFServerStarter Nat String :=
  { Server := { calls := [], bindPanic := fun _ _ _ => none, startError := fun _ => none,
                shutdownError := fun _ => none } }

/-- A starter whose server fails to start and to shut down. -/
def failing : GFServerStarter Nat String :=
  { Server := { calls := [], bindPanic := fun _ _ _ => none,
                startError := fun _ => some "listen",
                shutdownError := fun _ => some "close" } }

/-- A starter whose server starts without error but refuses to bind a pattern
that has been bound already. -/
def strict : GFServerStarter Nat String :=
  { Server := { calls := [],
                bindPanic := fun calls pattern _ =>
                  if calls.any (fun c => match c with
                    | ghttp.Call.BindHandler p _ => p == pattern
                    | _ => false) then some "duplicated route" else none,
                startError := fun _ => none, shutdownError := fun _ => none } }

/-- The store after `Request(1, "/x", 7)` and `Request(4, "/x", 8)` on the
table at address 0: a GET and a PATCH at the same path. -/
def storeD : Store Nat Nat :=
  (WebMapping.Request (WebMapping.Request store₀ 0 1 "/x" 7).1 0 4 "/x" 8).1

end Example

/-! ## The key of a registration -/

namespace fmt

/-- The value of a hexadecimal digit character. -/
def digitValue (c : Char) : Nat :=
  if c.toNat ≤ 57 then c.toNat - 48 else c.toNat - 87

/-- The number written by a list of hexadecimal digits. -/
def hexValue (l : List Char) : Nat :=
  l.foldl (fun a c => a * 16 + digitValue c) 0

/-- The lowercase hexadecimal digits. -/
def hexDigits : List Char :=
  ['0', '1', '2', '3', '4', '5', '6', '7', '8', '9', 'a', 'b', 'c', 'd', 'e', 'f']

theorem digitValue_digitChar (d : Nat) (h : d < 16) : digitValue (Nat.digitChar d) = d := by
  interval_cases d <;> rfl

theorem digitChar_mem (d : Nat) (h : d < 16) : Nat.digitChar d ∈ hexDigits := by
  interval_cases d <;> decide

theorem toDigitsCore_spec (fuel : Nat) : ∀ (n : Nat) (ds : List Char), n < fuel →
    ∃ D : List Char, Nat.toDigitsCore 16 fuel n ds = D ++ ds ∧ hexValue D = n ∧
      ∀ c ∈ D, c ∈ hexDigits := by
  induction fuel with
  | zero => intro n ds h; omega
  | succ fuel ih =>
    intro n ds h
    unfold Nat.toDigitsCore
    by_cases h0 : n / 16 = 0
    · refine ⟨[Nat.digitChar (n % 16)], ?_, ?_, ?_⟩
      · simp [h0]
      · have hn : n % 16 = n := by omega
        have hlt : n < 16 := by omega
        simp [hexValue, hn, digitValue_digitChar n hlt]
      · intro c hc
        simp only [List.mem_singleton] at hc
        rw [hc]
        exact digitChar_mem _ (Nat.mod_lt n (by norm_num))
    · have hlt : n / 16 < fuel := by omega
      obtain ⟨D, hD, hv, hat⟩ := ih (n / 16) (Nat.digitChar (n % 16) :: ds) hlt
      refine ⟨D ++ [Nat.digitChar (n % 16)], ?_, ?_, ?_⟩
      · simp [h0, hD]
      · unfold hexValue at hv ⊢
        rw [List.foldl_append, hv]
        simp [digitValue_digitChar _ (Nat.mod_lt n (by norm_num))]
        omega
      · intro c hc
        rcases List.mem_append.mp hc with hc | hc
        · exact hat c hc
        · simp only [List.mem_singleton] at hc
          rw [hc]
          exact digitChar_mem _ (Nat.mod_lt n (by norm_num))

theorem hexValue_replicate_zero (k : Nat) (l : List Char) :
    hexValue (List.replicate k '0' ++ l) = hexValue l := by
  induction k with
  | zero => simp
  | succ k ih =>
    have h0 : digitValue '0' = 0 := by decide
    simpa [hexValue, List.replicate_succ, h0] using ih

theorem hexValue_hex4 (v : Nat) : hexValue (hex4 v) = v := by
  obtain ⟨D, hD, hv, _⟩ := toDigitsCore_spec (v + 1) v [] (Nat.lt_succ_self v)
  have hT : Nat.toDigits 16 v = D := by simpa [Nat.toDigits] using hD
  rw [hex4, hexValue_replicate_zero, hT, hv]

theorem hex4_subset (v : Nat) : ∀ c ∈ hex4 v, c ∈ hexDigits := by
  obtain ⟨D, hD, _, hmem⟩ := toDigitsCore_spec (v + 1) v [] (Nat.lt_succ_self v)
  have hT : Nat.toDigits 16 v = D := by simpa [Nat.toDigits] using hD
  intro c hc
  rw [hex4, hT] at hc
  rcases List.mem_append.mp hc with h | h
  · rw [List.eq_of_mem_replicate h]
    decide
  · exact hmem c h

theorem at_not_mem_hex4 (v : Nat) : '@' ∉ hex4 v := by
  intro hmem
  exact absurd (hex4_subset v _ hmem) (by decide)

theorem hex4_length (v : Nat) :
    4 ≤ (hex4 v).length ∧ (v < 16 ^ 4 → (hex4 v).length = 4) := by
  constructor
  · simp only [hex4, List.length_append, List.length_replicate]
    omega
  · intro hv
    have h := Nat.toDigitsCore_length 16 (by norm_num) (v + 1) v 4 hv (by norm_num)
    have hT : (Nat.toDigits 16 v).length ≤ 4 := h
    simp only [hex4, List.length_append, List.length_replicate]
    omega

theorem append_cons_inj_of_not_mem {α : Type} (x : α) :
    ∀ (l₁ l₂ r₁ r₂ : List α), x ∉ l₁ → x ∉ l₂ → l₁ ++ x :: r₁ = l₂ ++ x :: r₂ →
      l₁ = l₂ ∧ r₁ = r₂ := by
  intro l₁
  induction l₁ with
  | nil =>
    intro l₂ r₁ r₂ _ h₂ h
    cases l₂ with
    | nil => simpa using h
    | cons b l₂ =>
      simp only [List.nil_append, List.cons_append, List.cons.injEq] at h
      exact absurd (by simp [h.1]) h₂
  | cons a l₁ ih =>
    intro l₂ r₁ r₂ h₁ h₂ h
    cases l₂ with
    | nil =>
      simp only [List.nil_append, List.cons_append, List.cons.injEq] at h
      exact absurd (by simp [h.1]) h₁
    | cons b l₂ =>
      simp only [List.cons_append, List.cons.injEq] at h
      have := ih l₂ r₁ r₂ (fun hm => h₁ (List.mem_cons_of_mem _ hm))
        (fun hm => h₂ (List.mem_cons_of_mem _ hm)) h.2
      exact ⟨by rw [h.1, this.1], this.2⟩

theorem Sprintf_key_data (method : Nat) (path : String) :
    (Sprintf_key method path).data = '0' :: 'x' :: (hex4 method ++ '@' :: path.data) := by
  simp [Sprintf_key, String.data_append]

theorem Sprintf_key_inj (m₁ m₂ : Nat) (p₁ p₂ : String)
    (h : Sprintf_key m₁ p₁ = Sprintf_key m₂ p₂) : m₁ = m₂ ∧ p₁ = p₂ := by
  have hd := congrArg String.data h
  rw [Sprintf_key_data, Sprintf_key_data] at hd
  simp only [List.cons.injEq, true_and] at hd
  obtain ⟨hh, hp⟩ := append_cons_inj_of_not_mem '@' _ _ _ _
    (at_not_mem_hex4 m₁) (at_not_mem_hex4 m₂) hd
  refine ⟨?_, String.ext hp⟩
  have := congrArg hexValue hh
  rwa [hexValue_hex4, hexValue_hex4] at this

end fmt

namespace SpringGF

variable {H F : Type}

/-- C5: the key `Key(m, p)` is "0x", then `m` in lowercase hexadecimal padded
with zeros to at least 4 digits (exactly 4 below 0x10000), then "@", then `p`;
two keys are equal if and only if the methods are equal and the paths are
equal. This holds for every natural number, in particular for every `uint32`
method. The key of a `Mapper` and of a `Mapping` is this key of its method and
path. -/
theorem Key_eq_iff (m₁ m₂ : Nat) (p₁ p₂ : String) :
    (fmt.Sprintf_key m₁ p₁ = fmt.Sprintf_key m₂ p₂ ↔ m₁ = m₂ ∧ p₁ = p₂) ∧
    (fmt.Sprintf_key m₁ p₁).data = '0' :: 'x' :: (fmt.hex4 m₁ ++ '@' :: p₁.data) ∧
    (fmt.hexValue (fmt.hex4 m₁) = m₁ ∧ (∀ c ∈ fmt.hex4 m₁, c ∈ fmt.hexDigits) ∧
      4 ≤ (fmt.hex4 m₁).length ∧ (m₁ < 16 ^ 4 → (fmt.hex4 m₁).length = 4)) ∧
    (∀ (σ : Store H F) (m : Nat),
      Mapper.Key σ m = fmt.Sprintf_key (Mapper.Method σ m) (Mapper.Path σ m) ∧
      Mapping.Key σ m = fmt.Sprintf_key (Mapping.Method σ m) (Mapping.Path σ m)) := by
  refine ⟨⟨fmt.Sprintf_key_inj m₁ m₂ p₁ p₂, ?_⟩, fmt.Sprintf_key_data m₁ p₁,
    ⟨fmt.hexValue_hex4 m₁, fmt.hex4_subset m₁, (fmt.hex4_length m₁).1, (fmt.hex4_length m₁).2⟩,
    fun σ m => ⟨rfl, rfl⟩⟩
  rintro ⟨rfl, rfl⟩
  rfl

theorem Sprintf_key_examples :
    fmt.Sprintf_key 1 "/a" = "0x0001@/a" ∧ fmt.Sprintf_key 0x12345 "/a" = "0x12345@/a" ∧
    fmt.Sprintf_key 0 "" = "0x0000@" ∧ fmt.Sprintf_key 255 "x" = "0x00ff@x" ∧
    fmt.Sprintf_key 4294967295 "/" = "0xffffffff@/" := by
  decide

end SpringGF

/-! ## The heap and slices -/

namespace Go

@[simp] theorem Heap.read_alloc_self {α : Type} (h : Heap α) (v : α) :
    (h.alloc v).1.read (h.alloc v).2 = v := by
  simp [Heap.alloc, Heap.read]

@[simp] theorem Heap.alloc_snd {α : Type} (h : Heap α) (v : α) : (h.alloc v).2 = h.next := rfl

@[simp] theorem Heap.alloc_next {α : Type} (h : Heap α) (v : α) :
    (h.alloc v).1.next = h.next + 1 := rfl

theorem Heap.read_alloc_of_ne {α : Type} (h : Heap α) (v : α) (p : Nat) (hp : p ≠ h.next) :
    (h.alloc v).1.read p = h.read p := by
  simp [Heap.alloc, Heap.read, Function.update_noteq hp]

@[simp] theorem Heap.read_write_self {α : Type} (h : Heap α) (p : Nat) (v : α) :
    (h.write p v).read p = v := by
  simp [Heap.write, Heap.read]

theorem Heap.read_write_of_ne {α : Type} (h : Heap α) (p q : Nat) (v : α) (hq : q ≠ p) :
    (h.write p v).read q = h.read q := by
  simp [Heap.write, Heap.read, Function.update_noteq hq]

@[simp] theorem Heap.write_next {α : Type} (h : Heap α) (p : Nat) (v : α) :
    (h.write p v).next = h.next := rfl

@[simp] theorem Slice.elems_nil {β : Type} (arrays : Heap (Nat → Option β)) :
    Slice.nil.elems arrays = [] := rfl

theorem Slice.length_elems {β : Type} (arrays : Heap (Nat → Option β)) (s : Slice) :
    (s.elems arrays).length = s.len := by
  simp [Slice.elems]

theorem variadic_elems {β : Type} (arrays : Heap (Nat → Option β)) (args : List (Option β)) :
    (variadic arrays args).2.elems (variadic arrays args).1 = args := by
  cases args with
  | nil => rfl
  | cons x xs =>
    apply List.ext_getElem
    · simp [variadic, Slice.elems]
    · intro i h₁ h₂
      simp only [variadic, Slice.elems, List.getElem_map, List.getElem_range, Heap.alloc,
        Heap.read, Function.update_same, Nat.zero_add]
      exact List.getD_eq_getElem _ _ h₂

end Go

namespace SpringGF

open SpringCore Go

variable {H F : Type}

/-- C7: each builder method of a `Mapping` (`SetPort`, `SetDoc`, `SetFilterNames`,
`SetFilters`) is defined on every input, returns the registration it was called
on, and afterwards the getters return what they returned before except the
matching getter, which returns the value passed in; `Key()`, `Method()` and
`Path()` are the same as before. For `SetFilters` the value passed in is a
slice: `Filters()` returns that slice, with its elements. No input is rejected:
a negative port, a port above 65535 and a filter given twice are stored as
given, and a registration can be made at the empty path. -/
theorem Mapping_builders_frame (σ : Store H F) (m : Nat) (port : Int) (doc : String)
    (filterNames : List String) (filters : Slice) :
    (Mapping.Port (Mapping.SetPort σ m (-1)).1 m = -1 ∧
      Mapping.Port (Mapping.SetPort σ m 70000).1 m = 70000 ∧
      (∀ f, Mapping.FilterList
        (Mapping.SetFilters { σ with arrays := (variadic σ.arrays [f, f]).1 } m
          (variadic σ.arrays [f, f]).2).1 m = [f, f]) ∧
      (∀ (t method : Nat) (fn : H),
        Mapping.Path (WebMapping.Request σ t method "" fn).1
          (WebMapping.Request σ t method "" fn).2 = "")) ∧
    ((Mapping.SetPort σ m port).2 = m ∧
      Mapping.observe (Mapping.SetPort σ m port).1 m =
        { Mapping.observe σ m with port := port }) ∧
    ((Mapping.SetDoc σ m doc).2 = m ∧
      Mapping.observe (Mapping.SetDoc σ m doc).1 m =
        { Mapping.observe σ m with doc := doc }) ∧
    ((Mapping.SetFilterNames σ m filterNames).2 = m ∧
      Mapping.observe (Mapping.SetFilterNames σ m filterNames).1 m =
        { Mapping.observe σ m with filterNames := filterNames }) ∧
    ((Mapping.SetFilters σ m filters).2 = m ∧
      Mapping.observe (Mapping.SetFilters σ m filters).1 m =
        { Mapping.observe σ m with slice := filters, filters := filters.elems σ.arrays }) := by
  refine ⟨⟨?_, ?_, ?_, ?_⟩, ⟨rfl, ?_⟩, ⟨rfl, ?_⟩, ⟨rfl, ?_⟩, ⟨rfl, ?_⟩⟩
  case refine_3 =>
    intro f
    have h := variadic_elems σ.arrays [f, f]
    simpa [Mapping.FilterList, Mapping.SetFilters, Mapper.SetFilters, Mapping.Filters,
      Mapper.Filters] using h
  all_goals
    simp [Mapping.observe, Mapping.FilterList, WebMapping.Request, NewMapping, NewMapper,
      Heap.alloc, Heap.read, Heap.write, Mapping.SetPort, Mapping.SetDoc, Mapping.SetFilterNames,
      Mapping.SetFilters, Mapper.SetFilters, Mapping.Key, Mapping.Method, Mapping.Path,
      Mapping.Handler, Mapping.Filters, Mapping.Port, Mapping.Doc, Mapping.FilterNames,
      Mapping.Cond, Mapper.Key, Mapper.Method, Mapper.Path, Mapper.Handler, Mapper.Filters]

/-! ### What `Request` does to the store -/

theorem Request_snd (σ : Store H F) (t method : Nat) (path : String) (fn : H) :
    (WebMapping.Request σ t method path fn).2 = σ.mappings.next := rfl

theorem Request_mappings_next (σ : Store H F) (t method : Nat) (path : String) (fn : H) :
    (WebMapping.Request σ t method path fn).1.mappings.next = σ.mappings.next + 1 := rfl

theorem Request_mappers_next (σ : Store H F) (t method : Nat) (path : String) (fn : H) :
    (WebMapping.Request σ t method path fn).1.mappers.next = σ.mappers.next + 1 := rfl

theorem Request_read_new (σ : Store H F) (t method : Nat) (path : String) (fn : H) :
    (WebMapping.Request σ t method path fn).1.mappings.read σ.mappings.next =
      { mapper := σ.mappers.next, port := 0, filterNames := [], cond := NewConditional,
        doc := "" } ∧
    (WebMapping.Request σ t method path fn).1.mappers.read σ.mappers.next =
      { method := method, path := path, handler := fn, filters := Slice.nil } := by
  simp [WebMapping.Request, NewMapping, NewMapper, Heap.alloc, Heap.read]

theorem Request_read_old (σ : Store H F) (t method : Nat) (path : String) (fn : H) :
    (∀ p, p ≠ σ.mappings.next →
      (WebMapping.Request σ t method path fn).1.mappings.read p = σ.mappings.read p) ∧
    (∀ q, q ≠ σ.mappers.next →
      (WebMapping.Request σ t method path fn).1.mappers.read q = σ.mappers.read q) := by
  constructor
  · intro p hp
    simp [WebMapping.Request, NewMapping, NewMapper, Heap.alloc, Heap.read,
      Function.update_noteq hp]
  · intro q hq
    simp [WebMapping.Request, NewMapping, NewMapper, Heap.alloc, Heap.read,
      Function.update_noteq hq]

theorem Request_observe (σ : Store H F) (t method : Nat) (path : String) (fn : H) :
    Mapping.observe (WebMapping.Request σ t method path fn).1
        (WebMapping.Request σ t method path fn).2 =
      { key := fmt.Sprintf_key method path, method := method, path := path, handler := fn,
        slice := Slice.nil, filters := [], port := 0, doc := "", filterNames := [],
        cond := NewConditional } := by
  have h := Request_read_new σ t method path fn
  simp [Mapping.observe, Mapping.FilterList, Request_snd, Mapping.Key, Mapping.Method, Mapping.Path,
    Mapping.Handler, Mapping.Filters, Mapping.Port, Mapping.Doc, Mapping.FilterNames,
    Mapping.Cond, Mapper.Key, Mapper.Method, Mapper.Path, Mapper.Handler, Mapper.Filters,
    h.1, h.2]

theorem Request_table (σ : Store H F) (t method : Nat) (path : String) (fn : H) :
    WebMapping.table (WebMapping.Request σ t method path fn).1 t =
      (WebMapping.table σ t).insert (fmt.Sprintf_key method path) σ.mappings.next := by
  simp [WebMapping.table, WebMapping.Request, NewMapping, NewMapper, Heap.alloc, Heap.read,
    Heap.write, Mapping.Key, Mapper.Key]

theorem Request_table_of_ne (σ : Store H F) (t method : Nat) (path : String) (fn : H)
    (u : Nat) (hu : u ≠ t) :
    WebMapping.table (WebMapping.Request σ t method path fn).1 u = WebMapping.table σ u := by
  simp [WebMapping.table, WebMapping.Request, NewMapping, NewMapper, Heap.alloc, Heap.read,
    Heap.write, Function.update_noteq hu]

/-- C1: after `Request(method, path, h1)`, any use of the builder methods on the
registration it returned, and `Request(method, path, h2)` on the same table, the
table has exactly one entry under `Key(method, path)`; that entry is the second
registration, a different object from the first, whose handler is `h2` and whose
port, doc, filters and filter names are the zero values, not those set on the
first registration. -/
theorem Request_twice_last_wins (σ : Store H F) (t method : Nat) (path : String) (h₁ h₂ : H)
    (port : Int) (doc : String) (filters : Slice) (filterNames : List String) :
    let r₁ := WebMapping.Request σ t method path h₁
    let s₁ := Mapping.SetPort r₁.1 r₁.2 port
    let s₂ := Mapping.SetDoc s₁.1 s₁.2 doc
    let s₃ := Mapping.SetFilters s₂.1 s₂.2 filters
    let s₄ := Mapping.SetFilterNames s₃.1 s₃.2 filterNames
    let r₂ := WebMapping.Request s₄.1 t method path h₂
    (WebMapping.table r₂.1 t).keys.count (fmt.Sprintf_key method path) = 1 ∧
    (WebMapping.table r₂.1 t).lookup (fmt.Sprintf_key method path) = some r₂.2 ∧
    r₂.2 ≠ r₁.2 ∧
    Mapping.observe r₂.1 r₂.2 =
      { key := fmt.Sprintf_key method path, method := method, path := path, handler := h₂,
        slice := Slice.nil, filters := [], port := 0, doc := "", filterNames := [],
        cond := NewConditional } := by
  intro r₁ s₁ s₂ s₃ s₄ r₂
  refine ⟨?_, ?_, ?_, Request_observe s₄.1 t method path h₂⟩
  · apply List.count_eq_one_of_mem (WebMapping.table r₂.1 t).keys_nodup
    rw [← AList.mem_keys]
    simp [r₂, Request_table, AList.mem_insert]
  · simp [r₂, Request_table, Request_snd, AList.lookup_insert]
  · show s₄.1.mappings.next ≠ σ.mappings.next
    have : s₄.1.mappings.next = σ.mappings.next + 1 := rfl
    omega

/-! ### `Router.Request` -/

theorem Router_Request_snd (σ : Store H F) (r : Router F) (method : Nat) (path : String)
    (fn : H) : (Router.Request σ r method path fn).2 = σ.mappings.next := rfl

theorem Router_Request_table (σ : Store H F) (r : Router F) (method : Nat) (path : String)
    (fn : H) :
    WebMapping.table (Router.Request σ r method path fn).1 r.mapping =
      (WebMapping.table σ r.mapping).insert
        (fmt.Sprintf_key method (r.basePath ++ path)) σ.mappings.next :=
  Request_table σ r.mapping method (r.basePath ++ path) fn

theorem Router_Request_observe (σ : Store H F) (r : Router F) (method : Nat) (path : String)
    (fn : H) :
    Mapping.observe (Router.Request σ r method path fn).1
        (Router.Request σ r method path fn).2 =
      { key := fmt.Sprintf_key method (r.basePath ++ path), method := method,
        path := r.basePath ++ path, handler := fn, slice := r.filters,
        filters := r.filters.elems σ.arrays, port := r.port,
        doc := "", filterNames := r.filterNames,
        cond := (NewConditional : Conditional F).OnCondition r.cond.Matches } := by
  have h := Request_read_new σ r.mapping method (r.basePath ++ path) fn
  have harr : (WebMapping.Request σ r.mapping method (r.basePath ++ path) fn).1.arrays =
      σ.arrays := rfl
  simp [Mapping.observe, Mapping.FilterList, Router.Request, Request_snd, harr, Mapping.ConditionOn,
    Mapping.SetFilterNames, Mapping.SetFilters, Mapper.SetFilters, Mapping.SetPort,
    Mapping.Key, Mapping.Method, Mapping.Path,
    Mapping.Handler, Mapping.Filters, Mapping.Port, Mapping.Doc, Mapping.FilterNames,
    Mapping.Cond, Mapper.Key, Mapper.Method, Mapper.Path, Mapper.Handler, Mapper.Filters,
    h.1, h.2]

/-- C3: for every router with base path `b` and every method, path `p` and
handler, the registration returned by `Router.Request` has `Path()` equal to the
concatenation `b ++ p`, with nothing normalised, has the key of the method and
`b ++ p`, and is the entry of the router's table under that key; base path
"/api" and path "/users" give "/api/users", and "/api/" and "/users" give
"/api//users". -/
theorem Router_Request_path (σ : Store H F) (r : Router F) (method : Nat) (path : String)
    (fn : H) :
    Mapping.Path (Router.Request σ r method path fn).1 (Router.Request σ r method path fn).2 =
      r.basePath ++ path ∧
    Mapping.Key (Router.Request σ r method path fn).1 (Router.Request σ r method path fn).2 =
      fmt.Sprintf_key method (r.basePath ++ path) ∧
    (WebMapping.table (Router.Request σ r method path fn).1 r.mapping).lookup
      (fmt.Sprintf_key method (r.basePath ++ path)) = some (Router.Request σ r method path fn).2 ∧
    (∀ t : Nat,
      Mapping.Path (Router.Request σ (NewRouter t "/api") method "/users" fn).1
        (Router.Request σ (NewRouter t "/api") method "/users" fn).2 = "/api/users" ∧
      Mapping.Path (Router.Request σ (NewRouter t "/api/") method "/users" fn).1
        (Router.Request σ (NewRouter t "/api/") method "/users" fn).2 = "/api//users") := by
  have hobs := fun (r : Router F) (path : String) =>
    congrArg Registration.path (Router_Request_observe σ r method path fn)
  have hkey := congrArg Registration.key (Router_Request_observe σ r method path fn)
  refine ⟨hobs r path, hkey, ?_, fun t => ⟨?_, ?_⟩⟩
  · rw [Router_Request_table, Router_Request_snd, AList.lookup_insert]
  · have h : ("/api" : String) ++ "/users" = "/api/users" := by decide
    exact (hobs (NewRouter t "/api") "/users").trans h
  · have h : ("/api/" : String) ++ "/users" = "/api//users" := by decide
    exact (hobs (NewRouter t "/api/") "/users").trans h

/-- C4: for every router, however configured, the registration returned by
`Router.Request` has `Port()` equal to the router's port, `Filters()` equal to
its filters (the same slice, with the same elements), `FilterNames()` equal to
its filter names, and a condition of
exactly one clause, which is the router's condition, so that it matches exactly
when the router's condition does. A router configured by `SetPort`,
`SetFilters`, `SetFilterNames` and `ConditionOn` holds the values passed. -/
theorem Router_Request_defaults (σ : Store H F) (r : Router F) (method : Nat) (path : String)
    (fn : H) :
    Mapping.Port (Router.Request σ r method path fn).1 (Router.Request σ r method path fn).2 =
      r.port ∧
    Mapping.Filters (Router.Request σ r method path fn).1 (Router.Request σ r method path fn).2 =
      r.filters ∧
    Mapping.FilterList (Router.Request σ r method path fn).1
      (Router.Request σ r method path fn).2 = r.filters.elems σ.arrays ∧
    Mapping.FilterNames (Router.Request σ r method path fn).1
      (Router.Request σ r method path fn).2 = r.filterNames ∧
    (Mapping.Cond (Router.Request σ r method path fn).1
      (Router.Request σ r method path fn).2).clauses.map Prod.snd = [r.cond.Matches] ∧
    (∀ ctx, Mapping.Matches (Router.Request σ r method path fn).1
      (Router.Request σ r method path fn).2 ctx = r.cond.Matches ctx) ∧
    (∀ (t : Nat) (b : String) (port : Int) (filters : Slice)
        (filterNames : List String) (c : Condition F),
      ((((NewRouter t b).SetPort port).SetFilters filters).SetFilterNames
          filterNames).ConditionOn c =
        { mapping := t, basePath := b, filters := filters, port := port,
          filterNames := filterNames,
          cond := (NewConditional : Conditional F).OnCondition c }) := by
  have hobs := Router_Request_observe σ r method path fn
  have hcond : Mapping.Cond (Router.Request σ r method path fn).1
      (Router.Request σ r method path fn).2 =
      (NewConditional : Conditional F).OnCondition r.cond.Matches :=
    congrArg Registration.cond hobs
  refine ⟨congrArg Registration.port hobs, congrArg Registration.slice hobs,
    congrArg Registration.filters hobs, congrArg Registration.filterNames hobs, ?_, ?_, ?_⟩
  · rw [hcond]
    rfl
  · intro ctx
    show (Mapping.Cond _ _).Matches ctx = _
    rw [hcond]
    simp [Conditional.Matches, Conditional.OnCondition, NewConditional, Conditional.step]
  · intro t b port filters filterNames c
    rfl

/-! ### Entries are never removed -/

theorem len_insert (s : AList (fun _ : String => Nat)) (k : String) (p : Nat) :
    (s.insert k p).entries.length =
      if k ∈ s.keys then s.entries.length else s.entries.length + 1 := by
  have hlen : ∀ s : AList (fun _ : String => Nat), s.entries.length = s.keys.length := by
    intro s
    simp [AList.keys, List.keys]
  rw [hlen, hlen, AList.keys_insert]
  split_ifs with hk
  · have hpos : 0 < s.keys.length := List.length_pos_of_mem hk
    rw [List.length_cons, List.length_erase_of_mem hk]
    omega
  · rw [List.length_cons, List.erase_of_not_mem hk]

/-- C6: `Request` removes nothing from the route table. When every pointer of
the table refers to an allocated object: every key present before the call is
present after it; under every key other than `Key(method, path)` the table
holds the same registration, which reads as before; and the number of entries
is the same when `Key(method, path)` was present and one more when it was
absent. -/
theorem Request_keeps_entries (σ : Store H F) (t method : Nat) (path : String) (fn : H)
    (hσ : WebMapping.Allocated σ t) :
    (∀ k, k ∈ (WebMapping.table σ t).keys →
      k ∈ (WebMapping.table (WebMapping.Request σ t method path fn).1 t).keys) ∧
    (∀ k, k ≠ fmt.Sprintf_key method path →
      (WebMapping.table (WebMapping.Request σ t method path fn).1 t).lookup k =
        (WebMapping.table σ t).lookup k ∧
      ∀ p, (WebMapping.table σ t).lookup k = some p →
        Mapping.observe (WebMapping.Request σ t method path fn).1 p = Mapping.observe σ p) ∧
    WebMapping.len (WebMapping.Request σ t method path fn).1 t =
      (if fmt.Sprintf_key method path ∈ (WebMapping.table σ t).keys
        then WebMapping.len σ t else WebMapping.len σ t + 1) := by
  refine ⟨?_, ?_, ?_⟩
  · intro k hk
    rw [Request_table, ← AList.mem_keys, AList.mem_insert]
    exact Or.inr (AList.mem_keys.mpr hk)
  · intro k hk
    refine ⟨?_, ?_⟩
    · rw [Request_table, AList.lookup_insert_ne hk]
    · intro p hp
      have hmem : (⟨k, p⟩ : Sigma fun _ : String => Nat) ∈ (WebMapping.table σ t).entries :=
        AList.mem_lookup_iff.mp hp
      obtain ⟨h₁, h₂⟩ := hσ _ hmem
      have hold := Request_read_old σ t method path fn
      have e₁ := hold.1 p (Nat.ne_of_lt h₁)
      have e₂ := hold.2 (σ.mappings.read p).mapper (Nat.ne_of_lt h₂)
      have harr : (WebMapping.Request σ t method path fn).1.arrays = σ.arrays := rfl
      simp only [Mapping.observe, Mapping.FilterList, harr, Mapping.Key, Mapping.Method,
        Mapping.Path,
        Mapping.Handler, Mapping.Filters, Mapping.Port, Mapping.Doc, Mapping.FilterNames,
        Mapping.Cond, Mapper.Key, Mapper.Method, Mapper.Path, Mapper.Handler, Mapper.Filters,
        e₁, e₂]
  · rw [WebMapping.len, WebMapping.len, Request_table]
    exact len_insert _ _ _

theorem store₁_allocated : WebMapping.Allocated Example.store₁ 0 := by
  intro e he
  have hent : (WebMapping.table Example.store₁ 0).entries = [⟨"0x0001@/health", 0⟩] := by
    decide
  rw [hent, List.mem_singleton] at he
  subst he
  decide

/-- C6, at the table holding `0x0001@/health`: registering another route, and
registering the same route again. -/
theorem Request_keeps_entries_witness :
    WebMapping.Allocated Example.store₁ 0 ∧
    (WebMapping.table (WebMapping.Request Example.store₁ 0 4 "/users" 8).1 0).lookup
      "0x0001@/health" = some 0 ∧
    Mapping.observe (WebMapping.Request Example.store₁ 0 4 "/users" 8).1 0 =
      Mapping.observe Example.store₁ 0 ∧
    WebMapping.len Example.store₁ 0 = 1 ∧
    WebMapping.len (WebMapping.Request Example.store₁ 0 4 "/users" 8).1 0 = 2 ∧
    WebMapping.len (WebMapping.Request Example.store₁ 0 1 "/health" 8).1 0 = 1 := by
  have h := Request_keeps_entries Example.store₁ 0 4 "/users" 8 store₁_allocated
  have h' := Request_keeps_entries Example.store₁ 0 1 "/health" 8 store₁_allocated
  have hl : (WebMapping.table Example.store₁ 0).lookup "0x0001@/health" = some 0 := by decide
  have hne : ("0x0001@/health" : String) ≠ fmt.Sprintf_key 4 "/users" := by decide
  have hlen : WebMapping.len Example.store₁ 0 = 1 := by decide
  refine ⟨store₁_allocated, ?_, ?_, hlen, ?_, ?_⟩
  · rw [(h.2.1 _ hne).1, hl]
  · exact (h.2.1 _ hne).2 0 hl
  · rw [h.2.2, hlen, if_neg (by decide)]
  · rw [h'.2.2, hlen, if_pos (by decide)]

end SpringGF

/-! ## The starter -/

namespace Go

theorem append_elems {β : Type} (arrays : Heap (Nat → Option β)) (s : Slice) (x : Option β) :
    (append arrays s x).2.elems (append arrays s x).1 = s.elems arrays ++ [x] := by
  unfold append
  split_ifs with h
  · simp only [Slice.elems, List.range_succ, List.map_append, List.map_cons, List.map_nil]
    congr 1
    · apply List.map_congr_left
      intro i hi
      have hlt : i < s.len := List.mem_range.mp hi
      have hne : s.off + i ≠ s.off + s.len := by omega
      simp [Heap.read, Heap.write, Function.update_noteq hne]
    · simp [Heap.read, Heap.write]
  · simp only [Slice.elems, List.range_succ, List.map_append, List.map_cons, List.map_nil]
    congr 1
    · apply List.map_congr_left
      intro i hi
      have hlt : i < s.len := List.mem_range.mp hi
      simp [Heap.read, Heap.alloc, hlt]
    · simp [Heap.read, Heap.alloc]

end Go

namespace StarterGF

open SpringCore SpringGF SpringUtils Go

variable {H F E : Type}

theorem resolveFilters_elems (ctx : SpringContext F) (names : List String) :
    ∀ (arrays : Heap (Nat → SpringWeb.Filter F)) (s : Slice),
      (resolveFilters ctx names (arrays, s)).2.elems (resolveFilters ctx names (arrays, s)).1 =
        s.elems arrays ++ names.map (resolved ctx) := by
  induction names with
  | nil => intro arrays s; simp [resolveFilters]
  | cons n names ih =>
    intro arrays s
    simp only [resolveFilters]
    rw [ih, append_elems]
    simp [resolved]

theorem bindMapping_objects (ctx : SpringContext F) (acc : Loop H F E) (m : Nat) :
    (bindMapping ctx acc m).store.mappers = acc.store.mappers ∧
    (bindMapping ctx acc m).store.mappings = acc.store.mappings ∧
    (bindMapping ctx acc m).store.tables = acc.store.tables := by
  unfold bindMapping
  cases acc.panic with
  | some v => exact ⟨rfl, rfl, rfl⟩
  | none =>
    simp only
    split_ifs <;> exact ⟨rfl, rfl, rfl⟩

theorem foldl_bindMapping_objects (ctx : SpringContext F) (l : List Nat) :
    ∀ acc : Loop H F E,
      (l.foldl (bindMapping ctx) acc).store.mappers = acc.store.mappers ∧
      (l.foldl (bindMapping ctx) acc).store.mappings = acc.store.mappings ∧
      (l.foldl (bindMapping ctx) acc).store.tables = acc.store.tables := by
  induction l with
  | nil => intro acc; exact ⟨rfl, rfl, rfl⟩
  | cons m l ih =>
    intro acc
    rw [List.foldl_cons]
    obtain ⟨h₁, h₂, h₃⟩ := ih (bindMapping ctx acc m)
    obtain ⟨g₁, g₂, g₃⟩ := bindMapping_objects ctx acc m
    exact ⟨h₁.trans g₁, h₂.trans g₂, h₃.trans g₃⟩

theorem reads_of_same_objects (σ σ' : Store H F) (hm : σ'.mappers = σ.mappers)
    (hg : σ'.mappings = σ.mappings) (m : Nat) (ctx : SpringContext F) :
    Mapping.Matches σ' m ctx = Mapping.Matches σ m ctx ∧
    Mapping.Path σ' m = Mapping.Path σ m ∧
    Mapping.Handler σ' m = Mapping.Handler σ m ∧
    Mapping.FilterNames σ' m = Mapping.FilterNames σ m ∧
    Mapping.Filters σ' m = Mapping.Filters σ m := by
  simp [Mapping.Matches, Mapping.Path, Mapping.Handler, Mapping.FilterNames, Mapping.Filters,
    Mapper.Path, Mapper.Handler, Mapper.Filters, hm, hg]

theorem foldl_bindMapping_panicked (ctx : SpringContext F) (l : List Nat) :
    ∀ (acc : Loop H F E) (v : E), acc.panic = some v → l.foldl (bindMapping ctx) acc = acc := by
  induction l with
  | nil => intro acc v _; rfl
  | cons m l ih =>
    intro acc v hv
    have hb : bindMapping ctx acc m = acc := by
      simp [bindMapping, hv]
    rw [List.foldl_cons, hb]
    exact ih acc v hv

theorem foldl_bindMapping (ctx : SpringContext F) (σ : Store H F) (l : List Nat) :
    ∀ acc : Loop H F E, acc.store.mappers = σ.mappers → acc.store.mappings = σ.mappings →
      acc.panic = none →
      (l.foldl (bindMapping ctx) acc).server =
        (bindAll acc.server ((l.filter (fun m => Mapping.Matches σ m ctx)).map
          (fun m => (Mapping.Path σ m, Mapping.Handler σ m)))).1 ∧
      (l.foldl (bindMapping ctx) acc).panic =
        (bindAll acc.server ((l.filter (fun m => Mapping.Matches σ m ctx)).map
          (fun m => (Mapping.Path σ m, Mapping.Handler σ m)))).2 := by
  induction l with
  | nil =>
    intro acc _ _ hp
    simp [bindAll, hp]
  | cons m l ih =>
    intro acc hm hg hp
    rw [List.foldl_cons]
    obtain ⟨g₁, g₂, _⟩ := bindMapping_objects ctx acc m
    obtain ⟨r₁, r₂, r₃, _, _⟩ := reads_of_same_objects σ acc.store hm hg m ctx
    by_cases hmatch : Mapping.Matches σ m ctx = true
    · have hmatch' : Mapping.Matches acc.store m ctx = true := r₁.trans hmatch
      have hserver : (bindMapping ctx acc m).server =
          (acc.server.BindHandler (Mapping.Path σ m) (Mapping.Handler σ m)).1 := by
        simp [bindMapping, hp, hmatch', Mapping.Path, Mapping.Handler, Mapper.Path,
          Mapper.Handler, hm, hg]
      have hpanic : (bindMapping ctx acc m).panic =
          (acc.server.BindHandler (Mapping.Path σ m) (Mapping.Handler σ m)).2 := by
        simp [bindMapping, hp, hmatch', Mapping.Path, Mapping.Handler, Mapper.Path,
          Mapper.Handler, hm, hg]
      have hf : (m :: l).filter (fun m => Mapping.Matches σ m ctx) =
          m :: l.filter (fun m => Mapping.Matches σ m ctx) := by
        simp [List.filter_cons, hmatch]
      rw [hf, List.map_cons]
      cases hb : (acc.server.BindHandler (Mapping.Path σ m) (Mapping.Handler σ m)).2 with
      | some v =>
        rw [foldl_bindMapping_panicked ctx l _ v (hpanic.trans hb)]
        simp [bindAll, hb, hserver, hpanic]
      | none =>
        obtain ⟨i₁, i₂⟩ := ih (bindMapping ctx acc m) (g₁.trans hm) (g₂.trans hg)
          (hpanic.trans hb)
        rw [i₁, i₂, hserver]
        simp [bindAll, hb]
    · have hmatch' : ¬ Mapping.Matches acc.store m ctx = true := by
        rw [r₁]
        exact hmatch
      have hb : bindMapping ctx acc m = acc := by
        simp [bindMapping, hp, hmatch']
      have hf : (m :: l).filter (fun m => Mapping.Matches σ m ctx) =
          l.filter (fun m => Mapping.Matches σ m ctx) := by
        simp [List.filter_cons, hmatch]
      rw [hb, hf]
      exact ih acc hm hg hp

theorem rangeMappings_visited
    (order : RangeOrder)
    (σ : Store H F) (t : Nat) (ctx : SpringContext F) :
    ((rangeMappings order σ t).filter (fun m => Mapping.Matches σ m ctx)).map
      (fun m => (Mapping.Path σ m, Mapping.Handler σ m)) = visited order σ t ctx := by
  simp [rangeMappings, visited, WebMapping.table, List.filter_map, Function.comp_def]

theorem OnStartApplication_finish (starter : GFServerStarter H E) (σ : Store H F) (t : Nat)
    (ctx : SpringContext F)
    (order : RangeOrder) :
    ((starter.OnStartApplication σ t ctx order).starter.Server,
      (starter.OnStartApplication σ t ctx order).outcome) =
      finish (bindAll starter.Server (visited order σ t ctx)) := by
  obtain ⟨h₁, h₂⟩ := @foldl_bindMapping H F E ctx σ (rangeMappings order σ t)
    { store := σ, server := starter.Server, panic := none, merged := [] } rfl rfl rfl
  rw [rangeMappings_visited] at h₁ h₂
  simp only [] at h₁ h₂
  unfold GFServerStarter.OnStartApplication finish
  simp only [h₂]
  cases hb : (bindAll starter.Server (visited order σ t ctx)).2 with
  | some v => simp [h₁]
  | none => simp [h₁]

theorem visited_perm
    (order : RangeOrder)
    (σ : Store H F) (t : Nat) (ctx : SpringContext F)
    (horder : (order (WebMapping.table σ t).entries).Perm (WebMapping.table σ t).entries) :
    (visited order σ t ctx).Perm (matching σ t ctx) :=
  (horder.filter _).map _

theorem bindAll_returns (L : List (String × H)) :
    ∀ s : ghttp.Server H E,
      (∀ init b rest, L = init ++ b :: rest →
        s.bindPanic (s.calls ++ init.map bindCall) b.1 b.2 = none) →
      bindAll s L =
        ({ calls := s.calls ++ L.map bindCall, bindPanic := s.bindPanic,
           startError := s.startError, shutdownError := s.shutdownError }, none) := by
  induction L with
  | nil => intro s _; simp [bindAll]
  | cons b L ih =>
    intro s h
    have h₀ : s.bindPanic s.calls b.1 b.2 = none := by
      simpa using h [] b L rfl
    have hstep := ih (s.BindHandler b.1 b.2).1 (by
      intro init c rest hL
      have := h (b :: init) c rest (by rw [hL]; rfl)
      simpa [ghttp.Server.BindHandler, bindCall, List.append_assoc] using this)
    simp only [bindAll, ghttp.Server.BindHandler, h₀]
    simp only [ghttp.Server.BindHandler] at hstep
    rw [hstep]
    simp [bindCall, List.append_assoc]

theorem bindAll_panics (init : List (String × H)) :
    ∀ (s : ghttp.Server H E) (b : String × H) (rest : List (String × H)) (v : E),
      (∀ i c r, init = i ++ c :: r → s.bindPanic (s.calls ++ i.map bindCall) c.1 c.2 = none) →
      s.bindPanic (s.calls ++ init.map bindCall) b.1 b.2 = some v →
      bindAll s (init ++ b :: rest) =
        ({ calls := s.calls ++ (init ++ [b]).map bindCall, bindPanic := s.bindPanic,
           startError := s.startError, shutdownError := s.shutdownError }, some v) := by
  induction init with
  | nil =>
    intro s b rest v _ hv
    have hv' : s.bindPanic s.calls b.1 b.2 = some v := by simpa using hv
    simp [bindAll, ghttp.Server.BindHandler, hv', bindCall]
  | cons a init ih =>
    intro s b rest v h hv
    have h₀ : s.bindPanic s.calls a.1 a.2 = none := by
      simpa using h [] a init rfl
    have hstep := ih (s.BindHandler a.1 a.2).1 b rest v (by
      intro i c r hi
      have := h (a :: i) c r (by rw [hi]; rfl)
      simpa [ghttp.Server.BindHandler, bindCall, List.append_assoc] using this)
      (by simpa [ghttp.Server.BindHandler, bindCall, List.append_assoc] using hv)
    simp only [List.cons_append, bindAll, ghttp.Server.BindHandler, h₀]
    simp only [ghttp.Server.BindHandler] at hstep
    exact hstep.trans (by simp [bindCall, List.append_assoc])

theorem finish_none (s : ghttp.Server H E) :
    finish (s, (none : Option E)) =
      ({ calls := s.calls ++ [ghttp.Call.Start], bindPanic := s.bindPanic,
         startError := s.startError, shutdownError := s.shutdownError },
        (match s.startError s.calls with
          | none => Outcome.returned
          | some e => Outcome.panicked (some e))) := by
  simp only [finish, ghttp.Server.Start, Panic, PanicCond.When]
  cases s.startError s.calls <;> simp

theorem OnStartApplication_returns (starter : GFServerStarter H E) (σ : Store H F) (t : Nat)
    (ctx : SpringContext F)
    (order : RangeOrder)
    (h : ∀ init b rest, visited order σ t ctx = init ++ b :: rest →
      starter.Server.bindPanic (starter.Server.calls ++ init.map bindCall) b.1 b.2 = none) :
    (starter.OnStartApplication σ t ctx order).starter.Server.calls =
      starter.Server.calls ++ (visited order σ t ctx).map bindCall ++ [ghttp.Call.Start] ∧
    (starter.OnStartApplication σ t ctx order).outcome =
      (match starter.Server.startError
          (starter.Server.calls ++ (visited order σ t ctx).map bindCall) with
        | none => Outcome.returned
        | some e => Outcome.panicked (some e)) := by
  have hf := OnStartApplication_finish starter σ t ctx order
  rw [bindAll_returns (visited order σ t ctx) starter.Server h, finish_none] at hf
  exact ⟨congrArg (fun p => p.1.calls) hf, congrArg Prod.snd hf⟩

theorem OnStartApplication_aborts (starter : GFServerStarter H E) (σ : Store H F) (t : Nat)
    (ctx : SpringContext F)
    (order : RangeOrder)
    (init : List (String × H)) (b : String × H) (rest : List (String × H)) (v : E)
    (hL : visited order σ t ctx = init ++ b :: rest)
    (h : ∀ i c r, init = i ++ c :: r →
      starter.Server.bindPanic (starter.Server.calls ++ i.map bindCall) c.1 c.2 = none)
    (hv : starter.Server.bindPanic (starter.Server.calls ++ init.map bindCall) b.1 b.2 =
      some v) :
    (starter.OnStartApplication σ t ctx order).starter.Server.calls =
      starter.Server.calls ++ (init ++ [b]).map bindCall ∧
    (starter.OnStartApplication σ t ctx order).outcome = Outcome.panicked (some v) := by
  have hf := OnStartApplication_finish starter σ t ctx order
  rw [hL, bindAll_panics init starter.Server b rest v h hv] at hf
  simp only [finish] at hf
  exact ⟨congrArg (fun p => p.1.calls) hf, congrArg Prod.snd hf⟩

theorem matching_calls (σ : Store H F) (t : Nat) (ctx : SpringContext F) :
    (matching σ t ctx).map bindCall =
      ((WebMapping.table σ t).entries.filter (fun e => Mapping.Matches σ e.2 ctx)).map
        (fun e => ghttp.Call.BindHandler (Mapping.Path σ e.2) (Mapping.Handler σ e.2)) := by
  simp [matching, bindCall, List.map_map, Function.comp_def]

/-- C2: for every store, route table and context, when `range` yields each
entry of the table once, in any order, and the server accepts the bindings,
the calls that `OnStartApplication` makes on the server are `BindHandler` calls
followed by `Start`, and the `BindHandler` calls are, up to their order, one
for each entry of the table whose registration has `Matches(ctx)` true, with
the `Path()` and `Handler()` of that registration. So a registration of the
table whose condition is true is bound, every `BindHandler` call is that of a
registration of the table whose condition is true, there are as many calls as
such registrations, and a table whose conditions are all false gets none. -/
theorem OnStartApplication_binds_matching (starter : GFServerStarter H E) (σ : Store H F)
    (t : Nat) (ctx : SpringContext F)
    (order : RangeOrder)
    (horder : (order (WebMapping.table σ t).entries).Perm (WebMapping.table σ t).entries)
    (hbind : ∀ calls pattern handler, starter.Server.bindPanic calls pattern handler = none) :
    ∃ binds : List (ghttp.Call H),
      (starter.OnStartApplication σ t ctx order).starter.Server.calls =
        starter.Server.calls ++ binds ++ [ghttp.Call.Start] ∧
      binds.Perm
        (((WebMapping.table σ t).entries.filter (fun e => Mapping.Matches σ e.2 ctx)).map
          (fun e => ghttp.Call.BindHandler (Mapping.Path σ e.2) (Mapping.Handler σ e.2))) ∧
      binds =
        ((order (WebMapping.table σ t).entries).filter
          (fun e => Mapping.Matches σ e.2 ctx)).map
          (fun e => ghttp.Call.BindHandler (Mapping.Path σ e.2) (Mapping.Handler σ e.2)) ∧
      (∀ k m, (WebMapping.table σ t).lookup k = some m → Mapping.Matches σ m ctx = true →
        ghttp.Call.BindHandler (Mapping.Path σ m) (Mapping.Handler σ m) ∈ binds) ∧
      (∀ c ∈ binds, ∃ k m, (WebMapping.table σ t).lookup k = some m ∧
        Mapping.Matches σ m ctx = true ∧
        c = ghttp.Call.BindHandler (Mapping.Path σ m) (Mapping.Handler σ m)) ∧
      binds.length =
        ((WebMapping.table σ t).entries.filter (fun e => Mapping.Matches σ e.2 ctx)).length ∧
      ((∀ k m, (WebMapping.table σ t).lookup k = some m → Mapping.Matches σ m ctx = false) →
        binds = []) := by
  have hret := OnStartApplication_returns starter σ t ctx order
    (fun init b _ _ => hbind _ b.1 b.2)
  have hperm : ((visited order σ t ctx).map bindCall).Perm
      (((WebMapping.table σ t).entries.filter (fun e => Mapping.Matches σ e.2 ctx)).map
        (fun e => ghttp.Call.BindHandler (Mapping.Path σ e.2) (Mapping.Handler σ e.2))) := by
    rw [← matching_calls]
    exact (visited_perm order σ t ctx horder).map _
  have hmem : ∀ c, c ∈ (visited order σ t ctx).map bindCall ↔
      ∃ k m, (WebMapping.table σ t).lookup k = some m ∧ Mapping.Matches σ m ctx = true ∧
        c = ghttp.Call.BindHandler (Mapping.Path σ m) (Mapping.Handler σ m) := by
    intro c
    rw [hperm.mem_iff]
    simp only [List.mem_map, List.mem_filter]
    constructor
    · rintro ⟨⟨k, m⟩, ⟨he, hmatch⟩, rfl⟩
      exact ⟨k, m, AList.mem_lookup_iff.mpr he, hmatch, rfl⟩
    · rintro ⟨k, m, hl, hmatch, rfl⟩
      exact ⟨⟨k, m⟩, ⟨AList.mem_lookup_iff.mp hl, hmatch⟩, rfl⟩
  refine ⟨(visited order σ t ctx).map bindCall, hret.1, hperm, ?_, ?_, ?_, ?_, ?_⟩
  · simp [visited, bindCall, List.map_map, Function.comp_def]
  · intro k m hl hmatch
    exact (hmem _).mpr ⟨k, m, hl, hmatch, rfl⟩
  · intro c hc
    exact (hmem c).mp hc
  · rw [hperm.length_eq, List.length_map]
  · intro hnone
    apply List.eq_nil_iff_forall_not_mem.mpr
    intro c hc
    obtain ⟨k, m, hl, hmatch, _⟩ := (hmem c).mp hc
    rw [hnone k m hl] at hmatch
    exact Bool.noConfusion hmatch

/-- C2, at the table with "/health" (no condition) and "/off" (a condition that
is false), iterated in the reverse of the order of the entries: the calls are
`BindHandler("/health", 7)` and `Start`. -/
theorem OnStartApplication_binds_matching_witness :
    (WebMapping.table Example.storeC 0).lookup "0x0001@/health" = some 0 ∧
    (WebMapping.table Example.storeC 0).lookup "0x0001@/off" = some 1 ∧
    Mapping.Matches Example.storeC 0 Example.ctx = true ∧
    Mapping.Matches Example.storeC 1 Example.ctx = false ∧
    (Example.starter.OnStartApplication Example.storeC 0 Example.ctx
      List.reverse).starter.Server.calls =
      [ghttp.Call.BindHandler "/health" 7, ghttp.Call.Start] := by
  obtain ⟨binds, hcalls, _, hb, _⟩ := OnStartApplication_binds_matching Example.starter
    Example.storeC 0 Example.ctx List.reverse (List.reverse_perm _) (fun _ _ _ => rfl)
  refine ⟨by decide, by decide, by decide, by decide, ?_⟩
  rw [hcalls, hb]
  decide

/-- C8 as stated fails: on the table with a GET and a PATCH registration at
"/x", a server that refuses to bind a pattern twice makes `OnStartApplication`
panic, although `Start` is never called and would return no error. -/
theorem start_panics_without_Start_error :
    (Example.strict.OnStartApplication Example.storeD 0 Example.ctx id).outcome =
      Outcome.panicked (some "duplicated route") ∧
    (Example.strict.OnStartApplication Example.storeD 0 Example.ctx id).starter.Server.calls =
      [ghttp.Call.BindHandler "/x" 8, ghttp.Call.BindHandler "/x" 7] ∧
    (∀ calls, Example.strict.Server.startError calls = none) ∧
    ¬ ((Example.strict.OnStartApplication Example.storeD 0 Example.ctx id).outcome ≠
        Outcome.returned ↔
      ∃ calls e, Example.strict.Server.startError calls = some e) := by
  refine ⟨by decide, by decide, fun _ => rfl, ?_⟩
  intro h
  obtain ⟨calls, e, he⟩ := h.mp (by decide)
  exact Option.noConfusion he

/-- C8, amended: `OnStartApplication` makes the `BindHandler` calls of the
matching registrations of the table (each entry once, in the order of the
iteration). If none of these calls panics, `Start` is called once, after all
of them, and `OnStartApplication` panics if and only if `Start` returns a
non-nil error, with that error as the panic value. If one of them panics,
`OnStartApplication` ends with that panic, no further call is made and `Start`
is not called. `OnStopApplication` calls `Shutdown` once and panics if and
only if `Shutdown` returns a non-nil error, with that error as the panic
value. Neither `Start` nor `Shutdown` is called again. -/
theorem start_stop_errors_fatal (starter : GFServerStarter H E) (σ : Store H F) (t : Nat)
    (ctx : SpringContext F)
    (order : RangeOrder)
    (horder : (order (WebMapping.table σ t).entries).Perm (WebMapping.table σ t).entries) :
    ((visited order σ t ctx).map bindCall).Perm
      (((WebMapping.table σ t).entries.filter (fun e => Mapping.Matches σ e.2 ctx)).map
        (fun e => ghttp.Call.BindHandler (Mapping.Path σ e.2) (Mapping.Handler σ e.2))) ∧
    ((∀ init b rest, visited order σ t ctx = init ++ b :: rest →
        starter.Server.bindPanic (starter.Server.calls ++ init.map bindCall) b.1 b.2 = none) →
      (starter.OnStartApplication σ t ctx order).starter.Server.calls =
        starter.Server.calls ++ (visited order σ t ctx).map bindCall ++ [ghttp.Call.Start] ∧
      (starter.OnStartApplication σ t ctx order).outcome =
        (match starter.Server.startError
            (starter.Server.calls ++ (visited order σ t ctx).map bindCall) with
          | none => Outcome.returned
          | some e => Outcome.panicked (some e))) ∧
    (∀ init b rest v, visited order σ t ctx = init ++ b :: rest →
      (∀ i c r, init = i ++ c :: r →
        starter.Server.bindPanic (starter.Server.calls ++ i.map bindCall) c.1 c.2 = none) →
      starter.Server.bindPanic (starter.Server.calls ++ init.map bindCall) b.1 b.2 = some v →
      (starter.OnStartApplication σ t ctx order).starter.Server.calls =
        starter.Server.calls ++ (init ++ [b]).map bindCall ∧
      (starter.OnStartApplication σ t ctx order).outcome = Outcome.panicked (some v)) ∧
    ((starter.OnStopApplication σ ctx).starter.Server.calls =
        starter.Server.calls ++ [ghttp.Call.Shutdown] ∧
      (starter.OnStopApplication σ ctx).outcome =
        (match starter.Server.shutdownError starter.Server.calls with
          | none => Outcome.returned
          | some e => Outcome.panicked (some e))) := by
  refine ⟨?_, OnStartApplication_returns starter σ t ctx order, ?_, rfl, ?_⟩
  · rw [← matching_calls]
    exact (visited_perm order σ t ctx horder).map _
  · intro init b rest v hL h hv
    exact OnStartApplication_aborts starter σ t ctx order init b rest v hL h hv
  · simp only [GFServerStarter.OnStopApplication, ghttp.Server.Shutdown, Panic, PanicCond.When]
    cases starter.Server.shutdownError starter.Server.calls <;> simp

/-- C8, amended, at three runs: a server that accepts the bindings and fails to
start; a server that refuses the second binding of "/x"; a server that fails to
shut down. -/
theorem start_stop_errors_fatal_witness :
    (Example.failing.OnStartApplication Example.storeD 0 Example.ctx id).starter.Server.calls =
      [ghttp.Call.BindHandler "/x" 8, ghttp.Call.BindHandler "/x" 7, ghttp.Call.Start] ∧
    (Example.failing.OnStartApplication Example.storeD 0 Example.ctx id).outcome =
      Outcome.panicked (some "listen") ∧
    (Example.strict.OnStartApplication Example.storeD 0 Example.ctx id).starter.Server.calls =
      [ghttp.Call.BindHandler "/x" 8, ghttp.Call.BindHandler "/x" 7] ∧
    (Example.strict.OnStartApplication Example.storeD 0 Example.ctx id).outcome =
      Outcome.panicked (some "duplicated route") ∧
    (Example.failing.OnStopApplication Example.storeD Example.ctx).outcome =
      Outcome.panicked (some "close") := by
  have hv : visited id Example.storeD 0 Example.ctx = [("/x", 8), ("/x", 7)] := by decide
  have h₁ := start_stop_errors_fatal Example.failing Example.storeD 0 Example.ctx id
    (List.Perm.refl _)
  have h₂ := start_stop_errors_fatal Example.strict Example.storeD 0 Example.ctx id
    (List.Perm.refl _)
  have a := h₁.2.1 (fun _ _ _ _ => rfl)
  have b := h₂.2.2.1 [("/x", 8)] ("/x", 7) [] "duplicated route" hv
    (by
      intro i c r hi
      cases i with
      | nil =>
        simp only [List.nil_append, List.cons.injEq] at hi
        rw [← hi.1]
        decide
      | cons x i =>
        simp only [List.cons_append, List.cons.injEq] at hi
        exact absurd hi.2 (by simp))
    (by decide)
  refine ⟨?_, ?_, ?_, b.2, ?_⟩
  · rw [a.1, hv]
    decide
  · rw [a.2, hv]
    decide
  · rw [b.1]
    decide
  · exact h₁.2.2.2.2

/-- C9: the calls made by `OnStartApplication` depend on the route table only
through the path, the handler and the outcome of the condition of each
registration: two stores and tables whose registrations agree on these, in the
order of the iteration, lead to the same calls on the server and the same
outcome, whatever their filters, filter names, methods, ports and docs. -/
theorem binds_receive_path_and_handler_only (starter : GFServerStarter H E)
    (σ₁ σ₂ : Store H F) (t₁ t₂ : Nat) (ctx : SpringContext F)
    (order₁ order₂ : RangeOrder)
    (h : (rangeMappings order₁ σ₁ t₁).map
          (fun m => (Mapping.Path σ₁ m, Mapping.Handler σ₁ m, Mapping.Matches σ₁ m ctx)) =
        (rangeMappings order₂ σ₂ t₂).map
          (fun m => (Mapping.Path σ₂ m, Mapping.Handler σ₂ m, Mapping.Matches σ₂ m ctx))) :
    (starter.OnStartApplication σ₁ t₁ ctx order₁).starter.Server.calls =
      (starter.OnStartApplication σ₂ t₂ ctx order₂).starter.Server.calls ∧
    (starter.OnStartApplication σ₁ t₁ ctx order₁).outcome =
      (starter.OnStartApplication σ₂ t₂ ctx order₂).outcome := by
  have key : ∀ (σ : Store H F) (t : Nat)
      (order : RangeOrder),
      visited order σ t ctx =
      (((rangeMappings order σ t).map
        (fun m => (Mapping.Path σ m, Mapping.Handler σ m, Mapping.Matches σ m ctx))).filter
          (fun x => x.2.2)).map (fun x => (x.1, x.2.1)) := by
    intro σ t order
    simp [visited, rangeMappings, WebMapping.table, List.filter_map, List.map_map,
      Function.comp_def]
  have hb : visited order₁ σ₁ t₁ ctx = visited order₂ σ₂ t₂ ctx := by
    rw [key σ₁ t₁, key σ₂ t₂, h]
  have h₁ := OnStartApplication_finish starter σ₁ t₁ ctx order₁
  have h₂ := OnStartApplication_finish starter σ₂ t₂ ctx order₂
  rw [hb] at h₁
  have heq := h₁.trans h₂.symm
  exact ⟨congrArg (fun p => p.1.calls) heq, congrArg Prod.snd heq⟩

/-- C9, at two tables with one registration each, of the same path "/x" and
handler 7: one is a GET with port 9090, a filter, a filter name and a doc, the
other a PATCH without any of these. Both starts make the one call
`BindHandler("/x", 7)` and then `Start`. -/
theorem binds_receive_path_and_handler_only_witness :
    Mapping.observe Example.storeA 0 =
      { key := "0x0001@/x", method := 1, path := "/x", handler := 7,
        slice := { array := 0, off := 0, len := 1, cap := 1 }, filters := [some 1],
        port := 9090, doc := "d", filterNames := ["f"], cond := NewConditional } ∧
    Mapping.observe Example.storeB 0 =
      { key := "0x0004@/x", method := 4, path := "/x", handler := 7, slice := Slice.nil,
        filters := [], port := 0, doc := "", filterNames := [], cond := NewConditional } ∧
    (Example.starter.OnStartApplication Example.storeA 0 Example.ctx id).starter.Server.calls =
      (Example.starter.OnStartApplication Example.storeB 0 Example.ctx
        id).starter.Server.calls ∧
    (Example.starter.OnStartApplication Example.storeB 0 Example.ctx id).starter.Server.calls =
      [ghttp.Call.BindHandler "/x" 7, ghttp.Call.Start] :=
  ⟨rfl, rfl,
    (binds_receive_path_and_handler_only Example.starter Example.storeA Example.storeB 0 0
      Example.ctx id id (by decide)).1,
    by decide⟩

theorem bindMapping_merged (ctx : SpringContext F) (acc : Loop H F E) (m : Nat)
    (hp : acc.panic = none) (hm : Mapping.Matches acc.store m ctx = true) :
    (bindMapping ctx acc m).merged =
      acc.merged ++ [Mapping.FilterList acc.store m ++
        (Mapping.FilterNames acc.store m).map (resolved ctx)] := by
  have h := resolveFilters_elems ctx (Mapping.FilterNames acc.store m) acc.store.arrays
    (Mapping.Filters acc.store m)
  simp [bindMapping, hp, hm, h, Mapping.FilterList]

theorem OnStartApplication_objects (starter : GFServerStarter H E) (σ : Store H F) (t : Nat)
    (ctx : SpringContext F)
    (order : RangeOrder) :
    (starter.OnStartApplication σ t ctx order).store.mappers = σ.mappers ∧
    (starter.OnStartApplication σ t ctx order).store.mappings = σ.mappings ∧
    (starter.OnStartApplication σ t ctx order).store.tables = σ.tables := by
  have h := @foldl_bindMapping_objects H F E ctx (rangeMappings order σ t)
    { store := σ, server := starter.Server, panic := none, merged := [] }
  unfold GFServerStarter.OnStartApplication
  simp only []
  split <;> exact h

/-- C10 as stated fails: the registration at address 0 of the example table
matches, has the filter list `[1]` (set by `SetFilters(1)`) and the filter name
"f", which the context resolves to the filter 5; after `OnStartApplication` its
`Filters()` is still `[1]`, not `[1, 5]`. -/
theorem OnStartApplication_Filters_counterexample :
    Mapping.Matches Example.storeA 0 Example.ctx = true ∧
    Mapping.FilterList Example.storeA 0 = [some 1] ∧
    Mapping.FilterNames Example.storeA 0 = ["f"] ∧
    resolved Example.ctx "f" = some 5 ∧
    Mapping.FilterList
      (Example.starter.OnStartApplication Example.storeA 0 Example.ctx id).store 0 =
      [some 1] ∧
    Mapping.FilterList
      (Example.starter.OnStartApplication Example.storeA 0 Example.ctx id).store 0 ≠
      Mapping.FilterList Example.storeA 0 ++
        (Mapping.FilterNames Example.storeA 0).map (resolved Example.ctx) := by
  refine ⟨by decide, by decide, by decide, by decide, by decide, by decide⟩

/-- C10, amended: on start, for every registration whose condition is true,
every named filter is resolved by bean lookup in the context and appended to
the local slice `filters`, which starts as the registration's `Filters()`:
after the inner loop the local slice holds the elements that `Filters()` had
when the registration was reached, followed by one resolved filter for each
entry of `FilterNames()`, in the order of `FilterNames()`. The local slice is
not stored in the registration: `Filters()` of every registration returns the
same slice value (array, length, capacity) after `OnStartApplication` as
before. -/
theorem OnStartApplication_merges_locally (ctx : SpringContext F) :
    (∀ (names : List String) (arrays : Heap (Nat → SpringWeb.Filter F)) (s : Slice),
      (resolveFilters ctx names (arrays, s)).2.elems (resolveFilters ctx names (arrays, s)).1 =
        s.elems arrays ++ names.map (resolved ctx)) ∧
    (∀ s, resolved ctx s = ctx.beans s) ∧
    (∀ (acc : Loop H F E) (m : Nat), acc.panic = none →
      Mapping.Matches acc.store m ctx = true →
      (bindMapping ctx acc m).merged =
        acc.merged ++ [Mapping.FilterList acc.store m ++
          (Mapping.FilterNames acc.store m).map (resolved ctx)]) ∧
    (∀ (starter : GFServerStarter H E) (σ : Store H F) (t : Nat)
        (order : RangeOrder)
        (m : Nat),
      Mapping.Filters (starter.OnStartApplication σ t ctx order).store m =
        Mapping.Filters σ m ∧
      (Mapping.FilterList (starter.OnStartApplication σ t ctx order).store m).length =
        (Mapping.FilterList σ m).length ∧
      Mapping.FilterNames (starter.OnStartApplication σ t ctx order).store m =
        Mapping.FilterNames σ m) := by
  refine ⟨fun names arrays s => resolveFilters_elems ctx names arrays s, ?_,
    fun acc m hp hm => bindMapping_merged ctx acc m hp hm, ?_⟩
  · intro s
    unfold resolved SpringContext.GetBeanByName
    cases ctx.beans s <;> rfl
  · intro starter σ t order m
    obtain ⟨h₁, h₂, _⟩ := OnStartApplication_objects starter σ t ctx order
    obtain ⟨_, _, _, r₄, r₅⟩ := reads_of_same_objects σ _ h₁ h₂ m ctx
    refine ⟨r₅, ?_, r₄⟩
    simp only [Mapping.FilterList, Slice.length_elems, r₅]

/-- The elements of a registration's `Filters()` can change during a start
when its slice shares a backing array with the slice of another registration
that has room: with `all = [1, 2]`, `a.SetFilters(all[:1]...)`, the filter name
"f" on `a` and `b.SetFilters(all...)`, the start appends the resolved filter 5
to the local slice of `a`, which writes `all[1]`; `Filters()` of `a` stays `[1]`
and `Filters()` of `b` goes from `[1, 2]` to `[1, 5]`. -/
theorem append_writes_shared_array :
    Mapping.FilterList Example.storeShared 0 = [some 1] ∧
    Mapping.FilterList Example.storeShared 1 = [some 1, some 2] ∧
    Mapping.FilterList
      (Example.starter.OnStartApplication Example.storeShared 0 Example.ctx id).store 0 =
      [some 1] ∧
    Mapping.FilterList
      (Example.starter.OnStartApplication Example.storeShared 0 Example.ctx id).store 1 =
      [some 1, some 5] ∧
    (Example.starter.OnStartApplication Example.storeShared 0 Example.ctx id).merged =
      [[some 1, some 2], [some 1, some 5]] := by
  decide

/-- A server that fails to start or to shut down makes the calls panic with the
error; one that succeeds lets them return. -/
theorem start_stop_examples :
    (Example.failing.OnStartApplication Example.store₁ 0 Example.ctx id).outcome =
      Outcome.panicked (some "listen") ∧
    (Example.failing.OnStopApplication Example.store₁ Example.ctx).outcome =
      Outcome.panicked (some "close") ∧
    (Example.starter.OnStartApplication Example.store₁ 0 Example.ctx id).outcome =
      Outcome.returned ∧
    (Example.starter.OnStartApplication Example.store₁ 0 Example.ctx id).starter.Server.calls =
      [ghttp.Call.BindHandler "/health" 7, ghttp.Call.Start] ∧
    (Example.starter.OnStopApplication Example.store₁ Example.ctx).starter.Server.calls =
      [ghttp.Call.Shutdown] := by
  decide

/-- The example of the spec for `And()` and `Or()`: the expression built by
`OnProperty("a").And().OnProperty("b").Or().OnProperty("c")` matches a context
in which only "c" is set, and an expression with no clause matches. -/
theorem Conditional_examples (ctx : SpringContext F)
    (ha : ctx.properties "a" = none) (hc : ctx.properties "c" = some "1") :
    ((((((NewConditional : Conditional F).OnCondition
      (fun x => (x.properties "a").isSome)).And).OnCondition
      (fun x => (x.properties "b").isSome)).Or).OnCondition
      (fun x => (x.properties "c").isSome)).Matches ctx = true ∧
    (NewConditional : Conditional F).Matches ctx = true := by
  simp [Conditional.Matches, Conditional.OnCondition, Conditional.And, Conditional.Or,
    NewConditional, Conditional.step, ha, hc]

end StarterGF
